import Mathlib

/-!
# haproxy-consul-connect: reconciliation driver, readiness wait and snapshot generation

A shallow embedding of

* `haproxy/state.go` (`HAProxy.handleChange`),
* `haproxy/haproxy_cmd/run.go` (`Start`),
* the fixtures of `haproxy/state/snapshot_test.go`,

together with a model of `state.Generate`, whose body lies outside these
three files and is therefore written down from the design document.

Go values are embedded as follows: `string` is `String`, `*int64` is
`Option Int`, a nil-able `error` is `Option String` (the message), a
`(T, error)` result is `Except String T`, slices are lists, and the
string-valued enumerations of the `models` package are inductive types whose
`unset` constructor is Go's zero value.  A field called `Type` in Go is `Typ`
here.
-/

set_option autoImplicit false
set_option linter.dupNamespace false

/-! ## The `models` package (the fields this repository sets) -/

namespace models

/-- Values of `Frontend.Mode` and `Backend.Mode`. -/
inductive Mode where
  | unset
  | http
  | tcp
  deriving DecidableEq

/-- Values of `Bind.Verify` and `Server.Verify`. -/
inductive Verify where
  | unset
  | required
  deriving DecidableEq

/-- Values of `Server.Ssl`. -/
inductive ServerSsl where
  | unset
  | enabled
  deriving DecidableEq

/-- Values of `Server.Maintenance`. -/
inductive Maintenance where
  | unset
  | enabled
  | disabled
  deriving DecidableEq

/-- Values of `LogTarget.Facility`. -/
inductive Facility where
  | unset
  | local0
  deriving DecidableEq

/-- Values of `LogTarget.Format`. -/
inductive LogFormat where
  | unset
  | rfc5424
  deriving DecidableEq

/-- Values of `Filter.Type`. -/
inductive FilterType where
  | unset
  | spoe
  deriving DecidableEq

/-- Values of `TCPRequestRule.Action`. -/
inductive TCPAction where
  | unset
  | reject
  deriving DecidableEq

/-- Values of `TCPRequestRule.Cond`. -/
inductive Cond where
  | unset
  | unless
  deriving DecidableEq

/-- Values of `TCPRequestRule.Type`. -/
inductive TCPRuleType where
  | unset
  | content
  deriving DecidableEq

/-- Values of `HTTPRequestRule.Type`. -/
inductive HTTPRuleType where
  | unset
  | addHeader
  deriving DecidableEq

/-- Values of `Balance.Algorithm`. -/
inductive BalanceAlgorithm where
  | leastconn
  deriving DecidableEq

structure Frontend where
  Name : String := ""
  DefaultBackend : String := ""
  ClientTimeout : Option Int := none
  Mode : Mode := Mode.unset
  Httplog : Bool := false
  deriving DecidableEq

structure Bind where
  Name : String := ""
  Address : String := ""
  Port : Option Int := none
  Ssl : Bool := false
  SslCafile : String := ""
  SslCertificate : String := ""
  Verify : Verify := Verify.unset
  deriving DecidableEq

structure LogTarget where
  Index : Option Int := none
  Address : String := ""
  Facility : Facility := Facility.unset
  Format : LogFormat := LogFormat.unset
  deriving DecidableEq

structure Filter where
  Index : Option Int := none
  Typ : FilterType := FilterType.unset
  SpoeEngine : String := ""
  SpoeConfig : String := ""
  deriving DecidableEq

structure TCPRequestRule where
  Index : Option Int := none
  Action : TCPAction := TCPAction.unset
  Cond : Cond := Cond.unset
  CondTest : String := ""
  Typ : TCPRuleType := TCPRuleType.unset
  deriving DecidableEq

structure Balance where
  Algorithm : Option BalanceAlgorithm := none
  deriving DecidableEq

structure Backend where
  Name : String := ""
  ServerTimeout : Option Int := none
  ConnectTimeout : Option Int := none
  Mode : Mode := Mode.unset
  Balance : Option Balance := none
  deriving DecidableEq

structure Server where
  Name : String := ""
  Address : String := ""
  Port : Option Int := none
  Weight : Option Int := none
  Ssl : ServerSsl := ServerSsl.unset
  SslCafile : String := ""
  SslCertificate : String := ""
  Verify : Verify := Verify.unset
  Maintenance : Maintenance := Maintenance.unset
  deriving DecidableEq

structure HTTPRequestRule where
  Index : Option Int := none
  Typ : HTTPRuleType := HTTPRuleType.unset
  HdrName : String := ""
  HdrFormat : String := ""
  deriving DecidableEq

end models

/-! ## The `consul` package: the desired policy -/

namespace consul

/-- A `time.Duration`, in nanoseconds. -/
abbrev Duration := Int

/-- The method `time.Duration.Milliseconds`. -/
def Milliseconds (d : Duration) : Int := Int.tdiv d 1000000

/-- The TLS requirement handed to the certificate store.  Its fields are not
read by anything embedded here; the fixtures leave it at its zero value. -/
structure TLS where
  CAs : List String := []
  Cert : String := ""
  Key : String := ""
  deriving DecidableEq

structure UpstreamNode where
  Host : String := ""
  Port : Int := 0
  Weight : Int := 0
  deriving DecidableEq

structure Upstream where
  Name : String := ""
  LocalBindAddress : String := ""
  LocalBindPort : Int := 0
  TLS : TLS := {}
  ConnectTimeout : Duration := 0
  ReadTimeout : Duration := 0
  Nodes : List UpstreamNode := []
  deriving DecidableEq

structure Downstream where
  LocalBindAddress : String := ""
  LocalBindPort : Int := 0
  TargetAddress : String := ""
  TargetPort : Int := 0
  AppNameHeaderName : String := ""
  TLS : TLS := {}
  ConnectTimeout : Duration := 0
  ReadTimeout : Duration := 0
  deriving DecidableEq

structure Config where
  Downstream : Downstream := {}
  Upstreams : List Upstream := []
  deriving DecidableEq

end consul

/-! ## The `state` package: snapshots -/

namespace state

structure FrontendFilter where
  Filter : models.Filter := {}
  Rule : models.TCPRequestRule := {}
  deriving DecidableEq

structure Frontend where
  Frontend : models.Frontend := {}
  Bind : models.Bind := {}
  LogTarget : Option models.LogTarget := none
  Filter : Option FrontendFilter := none
  deriving DecidableEq

structure Backend where
  Backend : models.Backend := {}
  Servers : List models.Server := []
  LogTarget : Option models.LogTarget := none
  HTTPRequestRules : List models.HTTPRequestRule := []
  deriving DecidableEq

structure State where
  Frontends : List Frontend := []
  Backends : List Backend := []
  deriving DecidableEq

structure Options where
  EnableIntentions : Bool := false
  LogRequests : Bool := false
  LogSocket : String := ""
  SPOEConfigPath : String := ""
  deriving DecidableEq

end state

/-! ## `haproxy/state.go`: the reconciliation driver -/

namespace haproxy

/-- The fields of `h.opts` that `handleChange` reads. -/
structure Options where
  EnableIntentions : Bool := false
  LogRequests : Bool := false
  deriving DecidableEq

/-- The fields of `h.haConfig` that `handleChange` reads.  The same value is
also handed to `state.Generate` as its certificate store. -/
structure haConfig where
  LogsSock : String := ""
  SPOE : String := ""
  deriving DecidableEq

/-- The driver `HAProxy`: the fields `handleChange` reads or writes.
`currentCfg` is a pointer, `none` when nil. -/
structure HAProxy where
  opts : Options := {}
  haConfig : haConfig := {}
  oldState : state.State := {}
  currentCfg : Option consul.Config := none
  deriving DecidableEq

/-- The collaborators `handleChange` calls, none of which is defined in
`state.go`.  `W` is whatever state they share (the dataplane API, the
certificate files); every call may read and change it.  `Tx` is the
transaction handle returned by `dataplaneClient.Tnx()`. -/
structure Collaborators (W Tx : Type) where
  Generate : state.Options → haConfig → state.State → consul.Config → W →
    Except String state.State × W
  Tnx : W → Tx × W
  Apply : Tx → state.State → state.State → W → Option String × W
  Commit : Tx → W → Option String × W

/-- One call made by `handleChange`, with its arguments. -/
inductive Call (Tx : Type) where
  | Generate (opts : state.Options) (certs : haConfig) (oldState : state.State)
      (cfg : consul.Config)
  | Tnx
  | Apply (tx : Tx) (oldState newState : state.State)
  | Commit (tx : Tx)

/-- What a run of `handleChange` leaves behind: the returned error, the
driver after the run, the collaborators' state, and the calls made, in
program order. -/
structure Run (W Tx : Type) where
  err : Option String
  h : HAProxy
  world : W
  calls : List (Call Tx)

/-- The `state.Options` literal that `handleChange` builds for
`state.Generate` (`state.go`, lines 12-16). -/
def generateOptions (h : HAProxy) : state.Options :=
  { EnableIntentions := h.opts.EnableIntentions
    LogRequests := h.opts.LogRequests
    LogSocket := h.haConfig.LogsSock
    SPOEConfigPath := h.haConfig.SPOE }

/-- The method `HAProxy.handleChange` (`state.go`, lines 9-38).  The log line
is not modelled. -/
def handleChange {W Tx : Type} (c : Collaborators W Tx) (h : HAProxy)
    (cfg : consul.Config) (w : W) : Run W Tx :=
  let opts := generateOptions h
  let callGenerate := Call.Generate opts h.haConfig h.oldState cfg
  match c.Generate opts h.haConfig h.oldState cfg w with
  | (Except.error err, w1) =>
    { err := some err, h := h, world := w1, calls := [callGenerate] }
  | (Except.ok newState, w1) =>
    match c.Tnx w1 with
    | (tx, w2) =>
      let callApply := Call.Apply tx h.oldState newState
      match c.Apply tx h.oldState newState w2 with
      | (some err, w3) =>
        { err := some err, h := h, world := w3,
          calls := [callGenerate, Call.Tnx, callApply] }
      | (none, w3) =>
        match c.Commit tx w3 with
        | (some err, w4) =>
          { err := some err, h := h, world := w4,
            calls := [callGenerate, Call.Tnx, callApply, Call.Commit tx] }
        | (none, w4) =>
          { err := none
            h := { h with oldState := newState, currentCfg := some cfg }
            world := w4
            calls := [callGenerate, Call.Tnx, callApply, Call.Commit tx] }

end haproxy

/-! ### Concrete collaborators, used to exercise `handleChange` -/

namespace haproxy

/-- The stage of a call, forgetting its arguments. -/
inductive Stage where
  | Generate
  | Tnx
  | Apply
  | Commit
  deriving DecidableEq

/-- The stage a call belongs to. -/
def Call.stage {Tx : Type} : Call Tx → Stage
  | Call.Generate _ _ _ _ => Stage.Generate
  | Call.Tnx => Stage.Tnx
  | Call.Apply _ _ _ => Stage.Apply
  | Call.Commit _ => Stage.Commit

/-- A snapshot with one bare backend called `name`. -/
def oneBackend (name : String) : state.State :=
  { Backends := [{ Backend := { Name := name } }] }

/-- Collaborators over a counter: `Generate` answers with the snapshot
`oneBackend "new"`, `Tnx` hands out the counter as transaction handle and
increments it, `Apply` and `Commit` answer what they are told to. -/
def scripted (applyErr commitErr : Option String) : Collaborators Nat Nat where
  Generate := fun _ _ _ _ w => (Except.ok (oneBackend "new"), w)
  Tnx := fun w => (w, w + 1)
  Apply := fun _ _ _ w => (applyErr, w)
  Commit := fun _ w => (commitErr, w)

/-- Collaborators whose `Generate` fails. -/
def failingGenerate : Collaborators Nat Nat where
  Generate := fun _ _ _ _ w => (Except.error "duplicate upstream", w)
  Tnx := fun w => (w, w + 1)
  Apply := fun _ _ _ w => (none, w)
  Commit := fun _ w => (none, w)

/-- A driver whose adopted snapshot is `oneBackend "old"`. -/
def driver0 : HAProxy :=
  { oldState := oneBackend "old" }

end haproxy

/-! ## `haproxy/haproxy_cmd/run.go`: launching and waiting for the dataplane API -/

namespace time

/-- The constant `time.Millisecond`, in nanoseconds. -/
def Millisecond : consul.Duration := 1000000

/-- The constant `time.Second`, in nanoseconds. -/
def Second : consul.Duration := 1000 * Millisecond

end time

namespace haproxy_cmd

structure Config where
  HAProxyPath : String := ""
  HAProxyConfigPath : String := ""
  DataplanePath : String := ""
  DataplaneTransactionDir : String := ""
  DataplaneSock : String := ""
  DataplaneUser : String := ""
  DataplanePass : String := ""
  deriving DecidableEq

/-- A launched command: the process id `Start` reads from it. -/
structure Cmd where
  Pid : Int
  deriving DecidableEq

/-- The client built by `dataplane.New`: its arguments, the HTTP client being
given by its timeout and the unix socket it dials. -/
structure Dataplane where
  addr : String
  userName : String
  password : String
  httpTimeout : consul.Duration
  dialSock : String
  deriving DecidableEq

/-- What `Start` talks to.  `runCommand path args` is the outcome of launching
a command; `Ping k` is the outcome of the call to `dataplaneClient.Ping()` that
follows `k` earlier calls; `Stop k` tells whether `sd.Stop` is ready when the
loop looks at it after `k` calls to `Ping`. -/
structure Env where
  runCommand : String → List String → Except String Cmd
  Ping : Nat → Option String
  Stop : Nat → Bool

/-- How the wait loop of `Start` is left: by `return` on shutdown, or by
`break` or a false loop condition with the variable `err` as it then is.
`pings` counts the calls to `Ping`. -/
inductive Wait where
  | exited (pings : Nat)
  | finished (err : Option String) (pings : Nat)
  deriving DecidableEq

/-- The number of iterations allowed by the loop condition
`i < (5*time.Second)/(100*time.Millisecond)`. -/
def attempts : consul.Duration := Int.tdiv (5 * time.Second) (100 * time.Millisecond)

/-- The loop of `Start` (`run.go`, lines 63-78), from loop variable `i`, with
`err` the current value of the variable `err` and `pings` calls to `Ping`
made so far.  `fuel` bounds the iterations; `Start` supplies `attempts`, which
the loop condition never lets it exceed.  The sleep and the printed line are
not modelled. -/
def waitLoop (env : Env) : Nat → consul.Duration → Option String → Nat → Wait
  | 0, _, err, pings => Wait.finished err pings
  | fuel + 1, i, err, pings =>
    if i < attempts then
      if env.Stop pings then
        Wait.exited pings
      else
        match env.Ping pings with
        | some e => waitLoop env fuel (i + 1) (some e) (pings + 1)
        | none => Wait.finished none (pings + 1)
    else
      Wait.finished err pings

/-- What `Start` returns, and the number of calls to `Ping` it made. -/
structure Started where
  client : Option Dataplane
  err : Option String
  pings : Nat
  deriving DecidableEq

/-- The client `Start` builds (`run.go`, lines 48-60). -/
def newClient (cfg : Config) : Dataplane :=
  { addr := "http://unix-sock"
    userName := cfg.DataplaneUser
    password := cfg.DataplanePass
    httpTimeout := 5 * time.Second
    dialSock := cfg.DataplaneSock }

/-- The arguments of the HAProxy command. -/
def haproxyArgs (cfg : Config) : List String :=
  ["-f", cfg.HAProxyConfigPath]

/-- The arguments of the dataplane API command, given HAProxy's process id. -/
def dataplaneArgs (cfg : Config) (pid : Int) : List String :=
  ["--scheme", "unix",
   "--socket-path", cfg.DataplaneSock,
   "--haproxy-bin", cfg.HAProxyPath,
   "--config-file", cfg.HAProxyConfigPath,
   "--reload-cmd", "kill -SIGUSR2 " ++ toString pid,
   "--reload-delay", "1",
   "--userlist", "controller",
   "--transaction-dir", cfg.DataplaneTransactionDir]

/-- The function `Start` (`run.go`, lines 23-84).  When the loop is entered
`err` is nil, both launches having succeeded. -/
def Start (env : Env) (cfg : Config) : Started :=
  match env.runCommand cfg.HAProxyPath (haproxyArgs cfg) with
  | Except.error e => { client := none, err := some e, pings := 0 }
  | Except.ok haCmd =>
    match env.runCommand cfg.DataplanePath (dataplaneArgs cfg haCmd.Pid) with
    | Except.error e => { client := none, err := some e, pings := 0 }
    | Except.ok _ =>
      match waitLoop env attempts.toNat 0 none 0 with
      | Wait.exited pings => { client := none, err := some "exited", pings := pings }
      | Wait.finished (some e) pings =>
        { client := none, err := some ("timeout waiting for dataplaneapi: " ++ e),
          pings := pings }
      | Wait.finished none pings =>
        { client := some (newClient cfg), err := none, pings := pings }

/-- An environment in which both commands launch, `Ping` fails `n` times and
then succeeds, and shutdown is signalled from the check after `s` pings on
(never, when `stop` is `none`). -/
def envUpAfter (n : Nat) (stop : Option Nat) : Env where
  runCommand := fun _ _ => Except.ok { Pid := 4242 }
  Ping := fun k => if k < n then some "connection refused" else none
  Stop := fun k =>
    match stop with
    | none => false
    | some s => decide (s ≤ k)

end haproxy_cmd

/-! ## `state.Generate` and the slot pool, from the design document

The test file calls `Generate(opts, certStore, oldState, cfg)`; its body is in
another file of the package.  The definitions of this section follow sections
3, 4.1 and 4.2 of the design document, and take from the fixtures of
`snapshot_test.go` what the document leaves open (entity names, the sentinel
values, the fields of the generated entities). -/

namespace strings

/-- Lexicographic comparison of two character sequences by code point. -/
def compareChars : List Char → List Char → Int
  | [], [] => 0
  | [], _ :: _ => -1
  | _ :: _, [] => 1
  | a :: as, b :: bs =>
    if a.toNat < b.toNat then -1
    else if b.toNat < a.toNat then 1
    else compareChars as bs

/-- Go's `strings.Compare`: negative, zero or positive as `a` sorts before,
with or after `b`. -/
def Compare (a b : String) : Int := compareChars a.data b.data

end strings

namespace state

/-- Constants of the packages `consul` and `state` that the fixtures and the
generated SPOE backend refer to; their values are declared in other files, so
they are taken as parameters. -/
structure Constants where
  DefaultConnectTimeout : consul.Duration
  DefaultReadTimeout : consul.Duration
  spoeTimeout : consul.Duration
  deriving DecidableEq

/-- The interface `CertificateStore`: its method `CertsPath` maps a TLS
requirement to a CA path and a certificate path, or fails. -/
abbrev CertificateStore := consul.TLS → Except String (String × String)

/-- The helper `int64p` of the test file, on an `int`. -/
def int64p (n : Int) : Option Int := some n

/-- The less-function both sorts use:
`strings.Compare(a.Name, b.Name) < 0`. -/
def frontendLess (a b : Frontend) : Prop :=
  strings.Compare a.Frontend.Name b.Frontend.Name < 0

instance frontendLessDecidable : DecidableRel frontendLess :=
  fun a b => inferInstanceAs (Decidable (strings.Compare a.Frontend.Name b.Frontend.Name < 0))

/-- The less-function of the backend sort. -/
def backendLess (a b : Backend) : Prop :=
  strings.Compare a.Backend.Name b.Backend.Name < 0

instance backendLessDecidable : DecidableRel backendLess :=
  fun a b => inferInstanceAs (Decidable (strings.Compare a.Backend.Name b.Backend.Name < 0))

/-- The two `sort.Slice` calls, by name: frontends and backends in ascending
order of name. -/
def sortByName (s : State) : State :=
  { Frontends := s.Frontends.insertionSort frontendLess
    Backends := s.Backends.insertionSort backendLess }

/-! ### The slot pool (design document, section 4.1) -/

/-- Modelled from the spec: the identity of a slot, its (address, port) pair
(section 3; the body of the slot pool manager is missing). -/
def slotKey (s : models.Server) : String × Option Int := (s.Address, s.Port)

/-- Modelled from the spec: the identity of a desired destination, its
(host, port) pair (section 3; the body of the slot pool manager is missing). -/
def nodeKey (n : consul.UpstreamNode) : String × Option Int := (n.Host, some n.Port)

/-- Modelled from the spec: the active/placeholder flag of a slot (section 3;
the body of the slot pool manager is missing).  The fixtures show it as the
maintenance field: a placeholder is a server in maintenance. -/
def isPlaceholder (s : models.Server) : Bool :=
  decide (s.Maintenance = models.Maintenance.enabled)

/-- Modelled from the spec: a slot is active when it is not a placeholder
(section 3; the body of the slot pool manager is missing). -/
def isActive (s : models.Server) : Bool := !isPlaceholder s

/-- Modelled from the spec: the placeholder slot of a given name, with the
sentinel address, port and weight (section 3: loopback, unreachable port,
minimal weight, always inactive; the body of the slot pool manager is missing).
The values are those of the fixtures: 127.0.0.1, port 1, weight 1. -/
def placeholder (name : String) : models.Server :=
  { Name := name
    Address := "127.0.0.1"
    Port := some 1
    Weight := some 1
    Maintenance := models.Maintenance.enabled }

/-- Modelled from the spec: the slot of a given name activated for a desired
destination: address, port and weight are the destination's and the flag is
active (section 4.1, step 3; the body of the slot pool manager is missing). -/
def activate (name : String) (n : consul.UpstreamNode) : models.Server :=
  { Name := name
    Address := n.Host
    Port := some n.Port
    Weight := some n.Weight
    Maintenance := models.Maintenance.disabled }

/-- Modelled from the spec: TLS stamping of a slot with the currently resolved
paths (section 4.2: every active and placeholder slot receives the current
resolved certificate paths; the body of the generator is missing). -/
def stamp (ca crt : String) (s : models.Server) : models.Server :=
  { s with
    Ssl := models.ServerSsl.enabled
    SslCafile := ca
    SslCertificate := crt
    Verify := models.Verify.required }

/-- Modelled from the spec: a desired destination is matched when a currently
active existing slot shares its (address, port) (section 4.1, steps 1 and 2;
the body of the slot pool manager is missing). -/
def matched (old : List models.Server) (n : consul.UpstreamNode) : Bool :=
  old.any (fun s => isActive s && decide (slotKey s = nodeKey n))

/-- Modelled from the spec: the desired destinations with no matching slot, in
the order of the desired list (section 4.1, step 3; the body of the slot pool
manager is missing). -/
def unmet (old : List models.Server) (nodes : List consul.UpstreamNode) :
    List consul.UpstreamNode :=
  nodes.filter (fun n => !matched old n)

/-- Modelled from the spec: the name of the slot at an index (section 3:
the name is the positional identity; the body of the slot pool manager is
missing).  The fixtures show the format `srv_<index>`. -/
def slotName (index : Nat) : String := "srv_" ++ toString index

/-- Modelled from the spec: what becomes of an active existing slot (section
4.1, steps 2 and 5; the body of the slot pool manager is missing).  When a
desired destination shares its (address, port) the slot is reused, only its
weight being updated; otherwise it becomes a placeholder of the same name. -/
def refreshSlot (nodes : List consul.UpstreamNode) (s : models.Server) : models.Server :=
  match nodes.find? (fun n => decide (nodeKey n = slotKey s)) with
  | some n => { s with Weight := some n.Weight }
  | none => placeholder s.Name

/-- Modelled from the spec: the pass over the existing slots in their physical
order (section 4.1, steps 2, 3, 5 and 6; the body of the slot pool manager is
missing).  An active slot is refreshed in place; a slot that came in as a
placeholder takes the next pending destination, lowest index first, and stays
as it is when none is pending.  `pending` are the unmatched destinations not
yet given a slot. -/
def reuseSlots (nodes : List consul.UpstreamNode) :
    List models.Server → List consul.UpstreamNode → List models.Server
  | [], _ => []
  | s :: rest, [] =>
    (if isActive s then refreshSlot nodes s else s) :: reuseSlots nodes rest []
  | s :: rest, n :: pending =>
    if isActive s then
      refreshSlot nodes s :: reuseSlots nodes rest (n :: pending)
    else
      activate s.Name n :: reuseSlots nodes rest pending

/-- Modelled from the spec: the destinations still without a slot once every
incoming placeholder has been given one (section 4.1, step 4; the body of the
slot pool manager is missing). -/
def leftover (old : List models.Server) (pending : List consul.UpstreamNode) :
    List consul.UpstreamNode :=
  pending.drop (old.countP isPlaceholder)

/-- Modelled from the spec: the capacity after growth, the smallest capacity at
least max(current capacity * 2, current capacity + unmet demand) (section 4.1,
step 4; the body of the slot pool manager is missing). -/
def grownCapacity (capacity demand : Nat) : Nat :=
  max (capacity * 2) (capacity + demand)

/-- Modelled from the spec: the slots appended when the pool must grow: one
per destination still without a slot, in order, then placeholders up to the
grown capacity; nothing when no destination is left (section 4.1, step 4; the
body of the slot pool manager is missing). -/
def growSlots (capacity : Nat) (rest : List consul.UpstreamNode) : List models.Server :=
  if rest = [] then []
  else
    (rest.enum.map (fun p => activate (slotName (capacity + p.1)) p.2)) ++
      ((List.range (grownCapacity capacity rest.length - (capacity + rest.length))).map
        (fun j => placeholder (slotName (capacity + rest.length + j))))

/-- Modelled from the spec: the slot pool manager: from the existing slots of
a backend and the desired destinations to the new slots, each stamped with the
resolved paths (section 4.1 and, for the stamping, section 4.2; the body of
the slot pool manager is missing).  Steps are taken in the order the document
lists them, so a slot freed in this pass (step 5) is not handed out again in
the same pass (step 3). -/
def slotPool (ca crt : String) (old : List models.Server)
    (nodes : List consul.UpstreamNode) : List models.Server :=
  (reuseSlots nodes old (unmet old nodes) ++
    growSlots old.length (leftover old (unmet old nodes))).map (stamp ca crt)

/-! ### The generator (design document, section 4.2) -/

/-- Modelled from the spec: the log sink descriptor every frontend and backend
receives when logging is enabled (section 4.2; the body of the generator is
missing).  Its fields are those of the fixtures. -/
def logTarget (opts : Options) : Option models.LogTarget :=
  if opts.LogRequests then
    some { Index := int64p 0
           Address := opts.LogSocket
           Facility := models.Facility.local0
           Format := models.LogFormat.rfc5424 }
  else none

/-- Modelled from the spec: the intention-enforcement filter of the downstream
frontend and its reject rule, attached when `EnableIntentions` is set (section
4.2; the body of the generator is missing).  Its fields are those of the
fixtures. -/
def intentionsFilter (opts : Options) : Option FrontendFilter :=
  if opts.EnableIntentions then
    some { Filter := { Index := int64p 0
                       Typ := models.FilterType.spoe
                       SpoeEngine := "intentions"
                       SpoeConfig := opts.SPOEConfigPath }
           Rule := { Index := int64p 0
                     Action := models.TCPAction.reject
                     Cond := models.Cond.unless
                     CondTest := "\x7b var(sess.connect.auth) -m int eq 1 \x7d"
                     Typ := models.TCPRuleType.content } }
  else none

/-- Modelled from the spec: the downstream frontend, with its reserved name and
a bind that carries the resolved TLS paths (section 4.2; the body of the
generator is missing). -/
def downstreamFrontend (opts : Options) (ca crt : String) (d : consul.Downstream) :
    Frontend :=
  { Frontend := { Name := "front_downstream"
                  DefaultBackend := "back_downstream"
                  ClientTimeout := int64p (consul.Milliseconds d.ReadTimeout)
                  Mode := models.Mode.http
                  Httplog := opts.LogRequests }
    Bind := { Name := "front_downstream_bind"
              Address := d.LocalBindAddress
              Port := int64p d.LocalBindPort
              Ssl := true
              SslCafile := ca
              SslCertificate := crt
              Verify := models.Verify.required }
    LogTarget := logTarget opts
    Filter := intentionsFilter opts }

/-- Modelled from the spec: the downstream backend, with its reserved name, one
server for the target and the header-injection rule for the app-identity
header when one is named (sections 3 and 4.2; the body of the generator is
missing). -/
def downstreamBackend (opts : Options) (d : consul.Downstream) : Backend :=
  { Backend := { Name := "back_downstream"
                 ServerTimeout := int64p (consul.Milliseconds d.ReadTimeout)
                 ConnectTimeout := int64p (consul.Milliseconds d.ConnectTimeout)
                 Mode := models.Mode.http }
    Servers := [{ Name := "downstream_node"
                  Address := d.TargetAddress
                  Port := int64p d.TargetPort }]
    LogTarget := logTarget opts
    HTTPRequestRules :=
      if d.AppNameHeaderName = "" then []
      else [{ Index := int64p 0
              Typ := models.HTTPRuleType.addHeader
              HdrName := d.AppNameHeaderName
              HdrFormat := "%[var(sess.connect.source_app)]" }] }

/-- Modelled from the spec: the backend of the intention-enforcement engine,
which the fixtures show next to the filter (the design document does not
describe it; the body of the generator is missing). -/
def spoeBackend (k : Constants) : Backend :=
  { Backend := { Name := "spoe_back"
                 ServerTimeout := int64p (consul.Milliseconds k.spoeTimeout)
                 ConnectTimeout := int64p (consul.Milliseconds k.spoeTimeout)
                 Mode := models.Mode.tcp }
    Servers := [{ Name := "haproxy_connect", Address := "unix@" }] }

/-- Modelled from the spec: the name of the frontend of an upstream, derived
from the upstream's name (section 4.2; the body of the generator is missing). -/
def frontendName (upstream : String) : String := "front_" ++ upstream

/-- Modelled from the spec: the name of the backend of an upstream, derived
from the upstream's name (section 4.2; the body of the generator is missing). -/
def backendName (upstream : String) : String := "back_" ++ upstream

/-- Modelled from the spec: the frontend of an upstream (section 4.2; the body
of the generator is missing). -/
def upstreamFrontend (opts : Options) (u : consul.Upstream) : Frontend :=
  { Frontend := { Name := frontendName u.Name
                  DefaultBackend := backendName u.Name
                  ClientTimeout := int64p (consul.Milliseconds u.ReadTimeout)
                  Mode := models.Mode.http
                  Httplog := opts.LogRequests }
    Bind := { Name := frontendName u.Name ++ "_bind"
              Address := u.LocalBindAddress
              Port := int64p u.LocalBindPort }
    LogTarget := logTarget opts }

/-- Modelled from the spec: the slots of the backend called `name` in a snapshot,
none when the snapshot has no such backend (section 4.2: the upstream's
previous backend slots, if any; the body of the generator is missing). -/
def backendSlots (oldState : State) (name : String) : List models.Server :=
  match oldState.Backends.find? (fun b => decide (b.Backend.Name = name)) with
  | some b => b.Servers
  | none => []

/-- Modelled from the spec: the backend of an upstream, its slots being those
the slot pool manager makes of the previous slots and the desired nodes, with
the load-balancing selector the fixtures show (section 4.2; the body of the
generator is missing). -/
def upstreamBackend (opts : Options) (ca crt : String) (oldState : State)
    (u : consul.Upstream) : Backend :=
  { Backend := { Name := backendName u.Name
                 ServerTimeout := int64p (consul.Milliseconds u.ReadTimeout)
                 ConnectTimeout := int64p (consul.Milliseconds u.ConnectTimeout)
                 Mode := models.Mode.http
                 Balance := some { Algorithm := some models.BalanceAlgorithm.leastconn } }
    Servers := slotPool ca crt (backendSlots oldState (backendName u.Name)) u.Nodes
    LogTarget := logTarget opts }

/-- Modelled from the spec: the frontend/backend pairs of the upstreams, in the
order of the policy; the certificate resolver is asked once per upstream and
its failure fails the generation (section 4.2; the body of the generator is
missing). -/
def generateUpstreams (opts : Options) (certStore : CertificateStore) (oldState : State) :
    List consul.Upstream → Except String (List (Frontend × Backend))
  | [] => Except.ok []
  | u :: rest =>
    match certStore u.TLS with
    | Except.error e => Except.error e
    | Except.ok (ca, crt) =>
      match generateUpstreams opts certStore oldState rest with
      | Except.error e => Except.error e
      | Except.ok pairs =>
        Except.ok ((upstreamFrontend opts u, upstreamBackend opts ca crt oldState u) :: pairs)

/-- Modelled from the spec: the names from which the generated pairs are named:
the reserved downstream name, then the upstream names (section 4.2; the body of
the generator is missing). -/
def pairNames (cfg : consul.Config) : List String :=
  "downstream" :: cfg.Upstreams.map (fun u => u.Name)

/-- Modelled from the spec: the generator (section 4.2; the body of
`Generate` is missing).  It fails, returning no snapshot, when two pairs would
bear the same name (duplicate upstream names, or an upstream taking the
reserved downstream name) or when the certificate resolver fails; otherwise it
returns the downstream pair, one pair per upstream and, with intentions
enabled, the SPOE backend, frontends and backends each sorted by name. -/
def Generate (k : Constants) (opts : Options) (certStore : CertificateStore)
    (oldState : State) (cfg : consul.Config) : Except String State :=
  if ¬ (pairNames cfg).Nodup then
    Except.error "invalid policy: duplicate name"
  else
    match certStore cfg.Downstream.TLS with
    | Except.error e => Except.error e
    | Except.ok (ca, crt) =>
      match generateUpstreams opts certStore oldState cfg.Upstreams with
      | Except.error e => Except.error e
      | Except.ok pairs =>
        Except.ok (sortByName
          { Frontends := downstreamFrontend opts ca crt cfg.Downstream :: pairs.map Prod.fst
            Backends := downstreamBackend opts cfg.Downstream :: pairs.map Prod.snd ++
              (if opts.EnableIntentions then [spoeBackend k] else []) })

/-! ### The fixtures of `snapshot_test.go` -/

/-- The function `GetTestConsulConfig` (`snapshot_test.go`, lines 13-46). -/
def GetTestConsulConfig (k : Constants) : consul.Config :=
  { Downstream :=
      { LocalBindAddress := "127.0.0.2"
        LocalBindPort := 9999
        TargetAddress := "128.0.0.5"
        TargetPort := 8888
        AppNameHeaderName := "X-App"
        ConnectTimeout := k.DefaultConnectTimeout
        ReadTimeout := k.DefaultReadTimeout }
    Upstreams :=
      [{ Name := "service_1"
         LocalBindAddress := "127.0.0.1"
         LocalBindPort := 10000
         ConnectTimeout := k.DefaultConnectTimeout
         ReadTimeout := k.DefaultReadTimeout
         Nodes := [{ Host := "1.2.3.4", Port := 8080, Weight := 5 },
                   { Host := "1.2.3.5", Port := 8081, Weight := 8 }] }] }

/-- The log target all fixtures share. -/
def testLogTarget (baseCfg : String) : Option models.LogTarget :=
  some { Index := int64p 0
         Address := baseCfg ++ "/logs.sock"
         Facility := models.Facility.local0
         Format := models.LogFormat.rfc5424 }

/-- The function `GetTestHAConfig` (`snapshot_test.go`, lines 48-219). -/
def GetTestHAConfig (k : Constants) (baseCfg certVersion : String) : State :=
  sortByName
    { Frontends :=
        [ { Frontend := { Name := "front_downstream"
                          DefaultBackend := "back_downstream"
                          ClientTimeout := int64p (consul.Milliseconds k.DefaultReadTimeout)
                          Mode := models.Mode.http
                          Httplog := true }
            Bind := { Name := "front_downstream_bind"
                      Address := "127.0.0.2"
                      Port := int64p 9999
                      Ssl := true
                      SslCafile := baseCfg ++ "/ca" ++ certVersion
                      SslCertificate := baseCfg ++ "/cert" ++ certVersion
                      Verify := models.Verify.required }
            LogTarget := testLogTarget baseCfg
            Filter := some
              { Filter := { Index := int64p 0
                            Typ := models.FilterType.spoe
                            SpoeEngine := "intentions"
                            SpoeConfig := baseCfg ++ "/spoe" }
                Rule := { Index := int64p 0
                          Action := models.TCPAction.reject
                          Cond := models.Cond.unless
                          CondTest := "\x7b var(sess.connect.auth) -m int eq 1 \x7d"
                          Typ := models.TCPRuleType.content } } },
          { Frontend := { Name := "front_service_1"
                          DefaultBackend := "back_service_1"
                          ClientTimeout := int64p (consul.Milliseconds k.DefaultReadTimeout)
                          Mode := models.Mode.http
                          Httplog := true }
            Bind := { Name := "front_service_1_bind"
                      Address := "127.0.0.1"
                      Port := int64p 10000 }
            LogTarget := testLogTarget baseCfg } ]
      Backends :=
        [ { Backend := { Name := "back_downstream"
                         ServerTimeout := int64p (consul.Milliseconds k.DefaultReadTimeout)
                         ConnectTimeout := int64p (consul.Milliseconds k.DefaultConnectTimeout)
                         Mode := models.Mode.http }
            Servers := [{ Name := "downstream_node"
                          Address := "128.0.0.5"
                          Port := int64p 8888 }]
            LogTarget := testLogTarget baseCfg
            HTTPRequestRules :=
              [{ Index := int64p 0
                 Typ := models.HTTPRuleType.addHeader
                 HdrName := "X-App"
                 HdrFormat := "%[var(sess.connect.source_app)]" }] },
          { Backend := { Name := "back_service_1"
                         ServerTimeout := int64p (consul.Milliseconds k.DefaultReadTimeout)
                         ConnectTimeout := int64p (consul.Milliseconds k.DefaultConnectTimeout)
                         Mode := models.Mode.http
                         Balance := some { Algorithm := some models.BalanceAlgorithm.leastconn } }
            Servers :=
              [ { Name := "srv_0"
                  Address := "1.2.3.4"
                  Port := int64p 8080
                  Weight := int64p 5
                  Ssl := models.ServerSsl.enabled
                  SslCafile := baseCfg ++ "/ca" ++ certVersion
                  SslCertificate := baseCfg ++ "/cert" ++ certVersion
                  Verify := models.Verify.required
                  Maintenance := models.Maintenance.disabled },
                { Name := "srv_1"
                  Address := "1.2.3.5"
                  Port := int64p 8081
                  Weight := int64p 8
                  Ssl := models.ServerSsl.enabled
                  SslCafile := baseCfg ++ "/ca" ++ certVersion
                  SslCertificate := baseCfg ++ "/cert" ++ certVersion
                  Verify := models.Verify.required
                  Maintenance := models.Maintenance.disabled } ]
            LogTarget := testLogTarget baseCfg },
          { Backend := { Name := "spoe_back"
                         ServerTimeout := int64p (consul.Milliseconds k.spoeTimeout)
                         ConnectTimeout := int64p (consul.Milliseconds k.spoeTimeout)
                         Mode := models.Mode.tcp }
            Servers := [{ Name := "haproxy_connect", Address := "unix@" }] } ] }

/-- The variable `TestOpts` (`snapshot_test.go`, lines 221-226). -/
def TestOpts : Options :=
  { EnableIntentions := true
    LogRequests := true
    LogSocket := "//logs.sock"
    SPOEConfigPath := "//spoe" }

/-- The type `fakeCertStore` with its method `CertsPath` (`snapshot_test.go`,
lines 310-316). -/
def fakeCertStore (suffix : String) : CertificateStore :=
  fun _ => Except.ok ("//ca" ++ suffix, "//cert" ++ suffix)

/-- The variable `TestCertStore` (`snapshot_test.go`, line 228). -/
def TestCertStore : CertificateStore := fakeCertStore ""

end state

/-! ### Auxiliary definitions for the statements about `Generate` -/

namespace state

/-- The paths a certificate store resolves a requirement to; two empty
paths when it fails. -/
def pathsOf (certStore : CertificateStore) (t : consul.TLS) : String × String :=
  match certStore t with
  | Except.ok p => p
  | Except.error _ => ("", "")

/-- The backend `Generate` builds for an upstream, with the paths the store
resolves for it. -/
def upstreamBackendOf (opts : Options) (certStore : CertificateStore) (oldState : State)
    (u : consul.Upstream) : Backend :=
  upstreamBackend opts (pathsOf certStore u.TLS).1 (pathsOf certStore u.TLS).2 oldState u

/-- The frontends and backends of the snapshot `Generate` returns when it
succeeds, before sorting. -/
def assembleUnsorted (k : Constants) (opts : Options) (certStore : CertificateStore)
    (oldState : State) (cfg : consul.Config) : State :=
  { Frontends :=
      downstreamFrontend opts (pathsOf certStore cfg.Downstream.TLS).1
        (pathsOf certStore cfg.Downstream.TLS).2 cfg.Downstream ::
        cfg.Upstreams.map (upstreamFrontend opts)
    Backends :=
      downstreamBackend opts cfg.Downstream ::
        cfg.Upstreams.map (upstreamBackendOf opts certStore oldState) ++
        (if opts.EnableIntentions then [spoeBackend k] else []) }

/-- The snapshot `Generate` returns when it succeeds. -/
def assemble (k : Constants) (opts : Options) (certStore : CertificateStore)
    (oldState : State) (cfg : consul.Config) : State :=
  sortByName (assembleUnsorted k opts certStore oldState cfg)

/-- The slots with every slot of a given (address, port) replaced, in place and
under its name, by a stamped placeholder. -/
def vacate (ca crt : String) (key : String × Option Int) (slots : List models.Server) :
    List models.Server :=
  slots.map (fun s => if slotKey s = key then stamp ca crt (placeholder s.Name) else s)

/-- The (address, port) pairs of the active slots, in the order of the
slots. -/
def activeKeys (slots : List models.Server) : List (String × Option Int) :=
  (slots.filter isActive).map slotKey

/-- The slots of a pool are well formed when the flag of every slot is set,
to active or to placeholder, and no two active slots are at the same (address,
port). -/
def WellFormedSlots (slots : List models.Server) : Prop :=
  (∀ s ∈ slots, s.Maintenance ≠ models.Maintenance.unset) ∧ (activeKeys slots).Nodup

/-- The snapshots the driver can hold: the empty snapshot it starts from, and
what `Generate` returns from a snapshot it can hold, for whatever options and
certificate store, on a policy whose upstreams have no two nodes of one (host,
port). -/
inductive Reachable (k : Constants) : State → Prop where
  | empty : Reachable k {}
  | step (opts : Options) (certStore : CertificateStore) (S0 S : State)
      (P : consul.Config) :
      Reachable k S0 →
      (∀ v ∈ P.Upstreams, (v.Nodes.map nodeKey).Nodup) →
      Generate k opts certStore S0 P = Except.ok S →
      Reachable k S

end state

/-! ### Concrete policies and snapshots, used to exercise `Generate` -/

namespace state

deriving instance DecidableEq for Except

/-- Values for the constants, to run the fixtures with. -/
def sampleConstants : Constants :=
  { DefaultConnectTimeout := 5 * time.Second
    DefaultReadTimeout := 60 * time.Second
    spoeTimeout := 30 * time.Second }

/-- The assignment `consulCfg.Upstreams[0].Nodes = nodes` of the tests. -/
def withNodes (cfg : consul.Config) (nodes : List consul.UpstreamNode) : consul.Config :=
  { cfg with
    Upstreams :=
      match cfg.Upstreams with
      | [] => []
      | u :: rest => { u with Nodes := nodes } :: rest }

/-- The node `1.2.3.4:8080` of the fixture, weight 5. -/
def nodeA : consul.UpstreamNode := { Host := "1.2.3.4", Port := 8080, Weight := 5 }

/-- The node `1.2.3.5:8081` of the fixture, weight 8. -/
def nodeB : consul.UpstreamNode := { Host := "1.2.3.5", Port := 8081, Weight := 8 }

/-- The node `1.2.3.6:8082`, weight 10, that `TestServerUpdate` adds. -/
def nodeC : consul.UpstreamNode := { Host := "1.2.3.6", Port := 8082, Weight := 10 }

/-- The slot a fixture has for a node, under a name and a certificate
version. -/
def testSlot (name : String) (n : consul.UpstreamNode) (certVersion : String) :
    models.Server :=
  { Name := name
    Address := n.Host
    Port := int64p n.Port
    Weight := int64p n.Weight
    Ssl := models.ServerSsl.enabled
    SslCafile := "//ca" ++ certVersion
    SslCertificate := "//cert" ++ certVersion
    Verify := models.Verify.required
    Maintenance := models.Maintenance.disabled }

/-- The placeholder the tests expect, under a name and a certificate
version (`snapshot_test.go`, lines 245-248 and 280-290). -/
def testPlaceholder (name : String) (certVersion : String) : models.Server :=
  { Name := name
    Address := "127.0.0.1"
    Port := int64p 1
    Weight := int64p 1
    Ssl := models.ServerSsl.enabled
    SslCafile := "//ca" ++ certVersion
    SslCertificate := "//cert" ++ certVersion
    Verify := models.Verify.required
    Maintenance := models.Maintenance.enabled }

/-- The upstream of the fixture policy. -/
def testUpstream : consul.Upstream :=
  { Name := "service_1"
    LocalBindAddress := "127.0.0.1"
    LocalBindPort := 10000
    ConnectTimeout := sampleConstants.DefaultConnectTimeout
    ReadTimeout := sampleConstants.DefaultReadTimeout
    Nodes := [nodeA, nodeB] }

/-- The assignment `expectedNewState.Backends[i].Servers = servers` of the
tests. -/
def withServers (s : State) (i : Nat) (servers : List models.Server) : State :=
  { s with Backends := s.Backends.modify (fun b => { b with Servers := servers }) i }

/-- A second node at `1.2.3.4:8080`, weight 7: the (host, port) of `nodeA`
under another weight. -/
def nodeA7 : consul.UpstreamNode := { Host := "1.2.3.4", Port := 8080, Weight := 7 }

/-- The fixture policy with the desired list `[1.2.3.4:8080 weight 5,
1.2.3.4:8080 weight 7]`: two nodes of one (host, port). -/
def duplicateNodesPolicy : consul.Config :=
  withNodes (GetTestConsulConfig sampleConstants) [nodeA, nodeA7]

/-- The fixture snapshot with the given slots in its upstream backend, under a
certificate version. -/
def fixtureWithSlots (certVersion : String) (slots : List models.Server) : State :=
  withServers (GetTestHAConfig sampleConstants "/" certVersion) 1 slots

end state

/-! ## Theorems: the reconciliation driver -/

namespace haproxy

/-- The run when `Generate` fails. -/
theorem handleChange_of_generate_error {W Tx : Type} (c : Collaborators W Tx) (h : HAProxy)
    (cfg : consul.Config) (w : W) (e : String) (w1 : W)
    (hg : c.Generate (generateOptions h) h.haConfig h.oldState cfg w = (Except.error e, w1)) :
    handleChange c h cfg w =
      { err := some e, h := h, world := w1,
        calls := [Call.Generate (generateOptions h) h.haConfig h.oldState cfg] } := by
  simp [handleChange, hg]

/-- The run when `Generate` succeeds and `Apply` fails. -/
theorem handleChange_of_apply_error {W Tx : Type} (c : Collaborators W Tx) (h : HAProxy)
    (cfg : consul.Config) (w : W) (N : state.State) (w1 : W) (e : String) (w3 : W)
    (hg : c.Generate (generateOptions h) h.haConfig h.oldState cfg w = (Except.ok N, w1))
    (ha : c.Apply (c.Tnx w1).1 h.oldState N (c.Tnx w1).2 = (some e, w3)) :
    handleChange c h cfg w =
      { err := some e, h := h, world := w3,
        calls := [Call.Generate (generateOptions h) h.haConfig h.oldState cfg, Call.Tnx,
          Call.Apply (c.Tnx w1).1 h.oldState N] } := by
  simp [handleChange, hg, ha]

/-- The run when `Generate` and `Apply` succeed and `Commit` fails. -/
theorem handleChange_of_commit_error {W Tx : Type} (c : Collaborators W Tx) (h : HAProxy)
    (cfg : consul.Config) (w : W) (N : state.State) (w1 w3 : W) (e : String) (w4 : W)
    (hg : c.Generate (generateOptions h) h.haConfig h.oldState cfg w = (Except.ok N, w1))
    (ha : c.Apply (c.Tnx w1).1 h.oldState N (c.Tnx w1).2 = (none, w3))
    (hc : c.Commit (c.Tnx w1).1 w3 = (some e, w4)) :
    handleChange c h cfg w =
      { err := some e, h := h, world := w4,
        calls := [Call.Generate (generateOptions h) h.haConfig h.oldState cfg, Call.Tnx,
          Call.Apply (c.Tnx w1).1 h.oldState N, Call.Commit (c.Tnx w1).1] } := by
  simp [handleChange, hg, ha, hc]

/-- The run when all three stages succeed. -/
theorem handleChange_of_success {W Tx : Type} (c : Collaborators W Tx) (h : HAProxy)
    (cfg : consul.Config) (w : W) (N : state.State) (w1 w3 w4 : W)
    (hg : c.Generate (generateOptions h) h.haConfig h.oldState cfg w = (Except.ok N, w1))
    (ha : c.Apply (c.Tnx w1).1 h.oldState N (c.Tnx w1).2 = (none, w3))
    (hc : c.Commit (c.Tnx w1).1 w3 = (none, w4)) :
    handleChange c h cfg w =
      { err := none, h := { h with oldState := N, currentCfg := some cfg }, world := w4,
        calls := [Call.Generate (generateOptions h) h.haConfig h.oldState cfg, Call.Tnx,
          Call.Apply (c.Tnx w1).1 h.oldState N, Call.Commit (c.Tnx w1).1] } := by
  simp [handleChange, hg, ha, hc]

/-- Every run is one of the four above. -/
theorem handleChange_cases {W Tx : Type} (c : Collaborators W Tx) (h : HAProxy)
    (cfg : consul.Config) (w : W) :
    (∃ e w1, c.Generate (generateOptions h) h.haConfig h.oldState cfg w = (Except.error e, w1))
    ∨ (∃ N w1 e w3,
        c.Generate (generateOptions h) h.haConfig h.oldState cfg w = (Except.ok N, w1) ∧
        c.Apply (c.Tnx w1).1 h.oldState N (c.Tnx w1).2 = (some e, w3))
    ∨ (∃ N w1 w3 e w4,
        c.Generate (generateOptions h) h.haConfig h.oldState cfg w = (Except.ok N, w1) ∧
        c.Apply (c.Tnx w1).1 h.oldState N (c.Tnx w1).2 = (none, w3) ∧
        c.Commit (c.Tnx w1).1 w3 = (some e, w4))
    ∨ (∃ N w1 w3 w4,
        c.Generate (generateOptions h) h.haConfig h.oldState cfg w = (Except.ok N, w1) ∧
        c.Apply (c.Tnx w1).1 h.oldState N (c.Tnx w1).2 = (none, w3) ∧
        c.Commit (c.Tnx w1).1 w3 = (none, w4)) := by
  rcases hg : c.Generate (generateOptions h) h.haConfig h.oldState cfg w with ⟨g, w1⟩
  cases g with
  | error e => exact Or.inl ⟨e, w1, rfl⟩
  | ok N =>
    rcases ha : c.Apply (c.Tnx w1).1 h.oldState N (c.Tnx w1).2 with ⟨a, w3⟩
    cases a with
    | some e => exact Or.inr (Or.inl ⟨N, w1, e, w3, rfl, ha⟩)
    | none =>
      rcases hc : c.Commit (c.Tnx w1).1 w3 with ⟨r, w4⟩
      cases r with
      | some e => exact Or.inr (Or.inr (Or.inl ⟨N, w1, w3, e, w4, rfl, ha, hc⟩))
      | none => exact Or.inr (Or.inr (Or.inr ⟨N, w1, w3, w4, rfl, ha, hc⟩))

/-- C1: if `handleChange` returns a non-nil error, then `h.oldState` and
`h.currentCfg` after the call are what they were before it: the generated
snapshot and the policy are adopted only after a successful commit. -/
theorem handleChange_error_keeps_adopted {W Tx : Type} (c : Collaborators W Tx)
    (h : HAProxy) (cfg : consul.Config) (w : W)
    (herr : (handleChange c h cfg w).err ≠ none) :
    (handleChange c h cfg w).h.oldState = h.oldState ∧
      (handleChange c h cfg w).h.currentCfg = h.currentCfg := by
  rcases handleChange_cases c h cfg w with ⟨e, w1, hg⟩ | ⟨N, w1, e, w3, hg, ha⟩ |
    ⟨N, w1, w3, e, w4, hg, ha, hc⟩ | ⟨N, w1, w3, w4, hg, ha, hc⟩
  · rw [handleChange_of_generate_error c h cfg w e w1 hg]; exact ⟨rfl, rfl⟩
  · rw [handleChange_of_apply_error c h cfg w N w1 e w3 hg ha]; exact ⟨rfl, rfl⟩
  · rw [handleChange_of_commit_error c h cfg w N w1 w3 e w4 hg ha hc]; exact ⟨rfl, rfl⟩
  · rw [handleChange_of_success c h cfg w N w1 w3 w4 hg ha hc] at herr
    exact absurd rfl herr

/-- C1 at a run whose commit fails: the snapshot `oneBackend "old"` stays
adopted. -/
theorem handleChange_error_keeps_adopted_witness :
    (handleChange (scripted none (some "commit failed")) driver0 {} 0).err ≠ none ∧
      (handleChange (scripted none (some "commit failed")) driver0 {} 0).h.oldState
        = oneBackend "old" ∧
      (handleChange (scripted none (some "commit failed")) driver0 {} 0).h.currentCfg
        = none :=
  ⟨by simp [handleChange, scripted],
    handleChange_error_keeps_adopted (scripted none (some "commit failed")) driver0 {} 0
      (by simp [handleChange, scripted])⟩

/-- C2: `tx.Commit` is invoked only if `state.Generate` and `state.Apply` both
returned nil, and on the transaction `Apply` staged into; when `Apply` fails
the transaction is never committed; when `Generate` fails neither `Apply` nor
`Commit` is invoked. -/
theorem commit_only_after_generate_and_apply {W Tx : Type} (c : Collaborators W Tx)
    (h : HAProxy) (cfg : consul.Config) (w : W) :
    (∀ tx, Call.Commit tx ∈ (handleChange c h cfg w).calls →
      ∃ N w1 w3,
        c.Generate (generateOptions h) h.haConfig h.oldState cfg w = (Except.ok N, w1) ∧
        tx = (c.Tnx w1).1 ∧
        c.Apply (c.Tnx w1).1 h.oldState N (c.Tnx w1).2 = (none, w3)) ∧
    (∀ N w1 e w3,
      c.Generate (generateOptions h) h.haConfig h.oldState cfg w = (Except.ok N, w1) →
      c.Apply (c.Tnx w1).1 h.oldState N (c.Tnx w1).2 = (some e, w3) →
      ∀ call ∈ (handleChange c h cfg w).calls, call.stage ≠ Stage.Commit) ∧
    (∀ e w1,
      c.Generate (generateOptions h) h.haConfig h.oldState cfg w = (Except.error e, w1) →
      ∀ call ∈ (handleChange c h cfg w).calls,
        call.stage ≠ Stage.Apply ∧ call.stage ≠ Stage.Commit) := by
  refine ⟨?_, ?_, ?_⟩
  · intro tx htx
    rcases handleChange_cases c h cfg w with ⟨e, w1, hg⟩ | ⟨N, w1, e, w3, hg, ha⟩ |
      ⟨N, w1, w3, e, w4, hg, ha, hc⟩ | ⟨N, w1, w3, w4, hg, ha, hc⟩
    · rw [handleChange_of_generate_error c h cfg w e w1 hg] at htx
      simp at htx
    · rw [handleChange_of_apply_error c h cfg w N w1 e w3 hg ha] at htx
      simp at htx
    · rw [handleChange_of_commit_error c h cfg w N w1 w3 e w4 hg ha hc] at htx
      simp at htx
      exact ⟨N, w1, w3, hg, htx, ha⟩
    · rw [handleChange_of_success c h cfg w N w1 w3 w4 hg ha hc] at htx
      simp at htx
      exact ⟨N, w1, w3, hg, htx, ha⟩
  · intro N w1 e w3 hg ha call hcall
    rw [handleChange_of_apply_error c h cfg w N w1 e w3 hg ha] at hcall
    simp at hcall
    rcases hcall with rfl | rfl | rfl <;> simp [Call.stage]
  · intro e w1 hg call hcall
    rw [handleChange_of_generate_error c h cfg w e w1 hg] at hcall
    simp at hcall
    subst hcall
    simp [Call.stage]

/-- C2 at a run whose `Apply` fails: no call of that run is a `Commit`. -/
theorem commit_only_after_generate_and_apply_witness :
    ∀ call ∈ (handleChange (scripted (some "server rejected") none) driver0 {} 0).calls,
      call.stage ≠ Stage.Commit :=
  (commit_only_after_generate_and_apply
      (scripted (some "server rejected") none) driver0 {} 0).2.1
    (oneBackend "new") 0 "server rejected" 1 rfl rfl

/-- C3 as stated fails: in a run whose `Apply` reports a consistency error,
`dataplaneClient.Tnx()` has been called (it precedes `Apply`, `state.go`
line 22). -/
theorem apply_failure_after_tnx_counterexample :
    (scripted (some "consistency error") none).Apply 0 (oneBackend "old")
        (oneBackend "new") 1 = (some "consistency error", 1) ∧
      (handleChange (scripted (some "consistency error") none) driver0 {} 0).err
        = some "consistency error" ∧
      (handleChange (scripted (some "consistency error") none) driver0 {} 0).calls
        = [Call.Generate (generateOptions driver0) driver0.haConfig (oneBackend "old") {},
            Call.Tnx, Call.Apply 0 (oneBackend "old") (oneBackend "new")] ∧
      Call.Tnx ∈ (handleChange (scripted (some "consistency error") none) driver0 {} 0).calls := by
  refine ⟨rfl, ?_, ?_, ?_⟩ <;> simp [handleChange, scripted, driver0]

/-- C3, amended: in every run in which `state.Apply` fails, the calls are
exactly `Generate`, `Tnx`, `Apply` in this order, so one transaction has been
opened before `Apply` and is never committed; the error of `Apply` is
returned and the driver is unchanged. -/
theorem apply_failure_leaves_transaction_uncommitted {W Tx : Type} (c : Collaborators W Tx)
    (h : HAProxy) (cfg : consul.Config) (w : W) (N : state.State) (w1 : W) (e : String)
    (w3 : W)
    (hg : c.Generate (generateOptions h) h.haConfig h.oldState cfg w = (Except.ok N, w1))
    (ha : c.Apply (c.Tnx w1).1 h.oldState N (c.Tnx w1).2 = (some e, w3)) :
    (handleChange c h cfg w).calls =
        [Call.Generate (generateOptions h) h.haConfig h.oldState cfg, Call.Tnx,
          Call.Apply (c.Tnx w1).1 h.oldState N] ∧
      (handleChange c h cfg w).err = some e ∧
      (handleChange c h cfg w).h = h := by
  rw [handleChange_of_apply_error c h cfg w N w1 e w3 hg ha]
  exact ⟨rfl, rfl, rfl⟩

/-- C3, amended, at a run whose `Apply` reports a consistency error. -/
theorem apply_failure_leaves_transaction_uncommitted_witness :
    (handleChange (scripted (some "consistency error") none) driver0 {} 0).calls =
        [Call.Generate (generateOptions driver0) driver0.haConfig driver0.oldState {},
          Call.Tnx, Call.Apply 0 driver0.oldState (oneBackend "new")] ∧
      (handleChange (scripted (some "consistency error") none) driver0 {} 0).err
        = some "consistency error" ∧
      (handleChange (scripted (some "consistency error") none) driver0 {} 0).h = driver0 :=
  apply_failure_leaves_transaction_uncommitted (scripted (some "consistency error") none)
    driver0 {} 0 (oneBackend "new") 0 "consistency error" 1 rfl rfl

/-- C4: if `Generate`, `Apply` and `Commit` all succeed then `handleChange`
returns nil; it called `Generate` with the previous snapshot `h.oldState` and
the policy `cfg`, which yielded `N`, then `Apply` with the opened transaction,
`h.oldState` and `N`; afterwards `h.oldState = N` and `h.currentCfg` points to
`cfg`. -/
theorem handleChange_success_adopts {W Tx : Type} (c : Collaborators W Tx)
    (h : HAProxy) (cfg : consul.Config) (w : W) (N : state.State) (w1 w3 w4 : W)
    (hg : c.Generate (generateOptions h) h.haConfig h.oldState cfg w = (Except.ok N, w1))
    (ha : c.Apply (c.Tnx w1).1 h.oldState N (c.Tnx w1).2 = (none, w3))
    (hc : c.Commit (c.Tnx w1).1 w3 = (none, w4)) :
    (handleChange c h cfg w).err = none ∧
      (handleChange c h cfg w).calls =
        [Call.Generate (generateOptions h) h.haConfig h.oldState cfg, Call.Tnx,
          Call.Apply (c.Tnx w1).1 h.oldState N, Call.Commit (c.Tnx w1).1] ∧
      (handleChange c h cfg w).h.oldState = N ∧
      (handleChange c h cfg w).h.currentCfg = some cfg := by
  rw [handleChange_of_success c h cfg w N w1 w3 w4 hg ha hc]
  exact ⟨rfl, rfl, rfl, rfl⟩

/-- C4 at a run in which every stage succeeds: `oneBackend "new"` is adopted. -/
theorem handleChange_success_adopts_witness :
    (handleChange (scripted none none) driver0 {} 0).err = none ∧
      (handleChange (scripted none none) driver0 {} 0).calls =
        [Call.Generate (generateOptions driver0) driver0.haConfig driver0.oldState {},
          Call.Tnx, Call.Apply 0 driver0.oldState (oneBackend "new"), Call.Commit 0] ∧
      (handleChange (scripted none none) driver0 {} 0).h.oldState = oneBackend "new" ∧
      (handleChange (scripted none none) driver0 {} 0).h.currentCfg = some {} :=
  handleChange_success_adopts (scripted none none) driver0 {} 0 (oneBackend "new") 0 1 1
    rfl rfl rfl

/-- C5: `handleChange` returns nil if and only if `Generate`, `Apply` and
`Commit` all return nil; otherwise it returns the error of the first failing
stage; and no stage is invoked more than once in a run. -/
theorem handleChange_error_propagation {W Tx : Type} (c : Collaborators W Tx)
    (h : HAProxy) (cfg : consul.Config) (w : W) :
    ((handleChange c h cfg w).err = none ↔
      ∃ N w1 w3 w4,
        c.Generate (generateOptions h) h.haConfig h.oldState cfg w = (Except.ok N, w1) ∧
        c.Apply (c.Tnx w1).1 h.oldState N (c.Tnx w1).2 = (none, w3) ∧
        c.Commit (c.Tnx w1).1 w3 = (none, w4)) ∧
    (∀ e w1,
      c.Generate (generateOptions h) h.haConfig h.oldState cfg w = (Except.error e, w1) →
      (handleChange c h cfg w).err = some e) ∧
    (∀ N w1 e w3,
      c.Generate (generateOptions h) h.haConfig h.oldState cfg w = (Except.ok N, w1) →
      c.Apply (c.Tnx w1).1 h.oldState N (c.Tnx w1).2 = (some e, w3) →
      (handleChange c h cfg w).err = some e) ∧
    (∀ N w1 w3 e w4,
      c.Generate (generateOptions h) h.haConfig h.oldState cfg w = (Except.ok N, w1) →
      c.Apply (c.Tnx w1).1 h.oldState N (c.Tnx w1).2 = (none, w3) →
      c.Commit (c.Tnx w1).1 w3 = (some e, w4) →
      (handleChange c h cfg w).err = some e) ∧
    (∀ s : Stage, (((handleChange c h cfg w).calls.map Call.stage).count s) ≤ 1) := by
  refine ⟨⟨?_, ?_⟩, ?_, ?_, ?_, ?_⟩
  · intro hnil
    rcases handleChange_cases c h cfg w with ⟨e, w1, hg⟩ | ⟨N, w1, e, w3, hg, ha⟩ |
      ⟨N, w1, w3, e, w4, hg, ha, hc⟩ | ⟨N, w1, w3, w4, hg, ha, hc⟩
    · rw [handleChange_of_generate_error c h cfg w e w1 hg] at hnil
      simp at hnil
    · rw [handleChange_of_apply_error c h cfg w N w1 e w3 hg ha] at hnil
      simp at hnil
    · rw [handleChange_of_commit_error c h cfg w N w1 w3 e w4 hg ha hc] at hnil
      simp at hnil
    · exact ⟨N, w1, w3, w4, hg, ha, hc⟩
  · rintro ⟨N, w1, w3, w4, hg, ha, hc⟩
    rw [handleChange_of_success c h cfg w N w1 w3 w4 hg ha hc]
  · intro e w1 hg
    rw [handleChange_of_generate_error c h cfg w e w1 hg]
  · intro N w1 e w3 hg ha
    rw [handleChange_of_apply_error c h cfg w N w1 e w3 hg ha]
  · intro N w1 w3 e w4 hg ha hc
    rw [handleChange_of_commit_error c h cfg w N w1 w3 e w4 hg ha hc]
  · intro s
    rcases handleChange_cases c h cfg w with ⟨e, w1, hg⟩ | ⟨N, w1, e, w3, hg, ha⟩ |
      ⟨N, w1, w3, e, w4, hg, ha, hc⟩ | ⟨N, w1, w3, w4, hg, ha, hc⟩
    · rw [handleChange_of_generate_error c h cfg w e w1 hg]
      cases s <;> simp [Call.stage]
    · rw [handleChange_of_apply_error c h cfg w N w1 e w3 hg ha]
      cases s <;> simp [Call.stage]
    · rw [handleChange_of_commit_error c h cfg w N w1 w3 e w4 hg ha hc]
      cases s <;> simp [Call.stage]
    · rw [handleChange_of_success c h cfg w N w1 w3 w4 hg ha hc]
      cases s <;> simp [Call.stage]

/-- C5 at a run whose `Generate` fails: its error is what `handleChange`
returns. -/
theorem handleChange_error_propagation_witness :
    (handleChange failingGenerate driver0 {} 0).err = some "duplicate upstream" :=
  (handleChange_error_propagation failingGenerate driver0 {} 0).2.1
    "duplicate upstream" 0 rfl

end haproxy

/-! ## Theorems: the readiness wait of `Start` -/

namespace haproxy_cmd

/-- The loop condition allows fifty iterations. -/
theorem attempts_eq : attempts = 50 := by decide

/-- The loop never makes more calls to `Ping` than it has fuel. -/
theorem waitLoop_pings_le (env : Env) (fuel : Nat) (i : Int)
    (err : Option String) (k : Nat) :
    (∀ p, waitLoop env fuel i err k = Wait.exited p → p ≤ k + fuel) ∧
    (∀ e p, waitLoop env fuel i err k = Wait.finished e p → p ≤ k + fuel) := by
  induction fuel generalizing i err k with
  | zero =>
    constructor
    · intro p hp; simp [waitLoop] at hp
    · intro e p hp; simp [waitLoop] at hp; omega
  | succ fuel ih =>
    unfold waitLoop
    by_cases hi : i < attempts
    · simp only [hi, if_true]
      by_cases hs : env.Stop k = true
      · simp only [hs, if_true]
        constructor
        · intro p hp; simp at hp; omega
        · intro e p hp; simp at hp
      · simp only [hs, if_false]
        cases hping : env.Ping k with
        | none =>
          constructor
          · intro p hp; simp at hp
          · intro e p hp; simp at hp; omega
        | some e0 =>
          constructor
          · intro p hp
            have := (ih (i + 1) (some e0) (k + 1)).1 p hp
            omega
          · intro e p hp
            have := (ih (i + 1) (some e0) (k + 1)).2 e p hp
            omega
    · simp only [hi, if_false]
      constructor
      · intro p hp; simp at hp
      · intro e p hp; simp at hp; omega

/-- If every one of the next `fuel` attempts fails without shutdown, the loop
runs them all and ends with the last error. -/
theorem waitLoop_all_fail (env : Env) (fuel : Nat) (i : Int)
    (err : Option String) (k : Nat) (hi : i + (fuel : Int) = 50)
    (hall : ∀ j, j < fuel → env.Stop (k + j) = false ∧ env.Ping (k + j) ≠ none) :
    waitLoop env fuel i err k =
      Wait.finished (if fuel = 0 then err else env.Ping (k + fuel - 1)) (k + fuel) := by
  induction fuel generalizing i err k with
  | zero => simp [waitLoop]
  | succ fuel ih =>
    have hlt : i < attempts := by rw [attempts_eq]; push_cast at hi; omega
    have h0 := hall 0 (Nat.succ_pos _)
    simp only [Nat.add_zero] at h0
    cases hping : env.Ping k with
    | none => exact absurd hping h0.2
    | some e0 =>
      unfold waitLoop
      simp only [hlt, if_true, h0.1, hping]
      rw [ih (i + 1) (some e0) (k + 1) (by push_cast at hi ⊢; omega)
        (fun j hj => by
          have := hall (j + 1) (by omega)
          rwa [show k + 1 + j = k + (j + 1) by omega])]
      by_cases hf : fuel = 0
      · subst hf; simp [hping]
      · simp only [hf, if_false, Nat.succ_ne_zero]
        rw [show k + 1 + fuel - 1 = k + (fuel + 1) - 1 by omega,
          show k + 1 + fuel = k + (fuel + 1) by omega]
        simp

/-- If the attempts before the `m`-th fail without shutdown and the `m`-th
succeeds, the loop stops there. -/
theorem waitLoop_first_success (env : Env) (fuel : Nat) (i : Int)
    (err : Option String) (k m : Nat) (hi : i + (fuel : Int) = 50) (hm : m < fuel)
    (hbefore : ∀ j, j < m → env.Stop (k + j) = false ∧ env.Ping (k + j) ≠ none)
    (hstop : env.Stop (k + m) = false) (hping : env.Ping (k + m) = none) :
    waitLoop env fuel i err k = Wait.finished none (k + m + 1) := by
  induction fuel generalizing i err k m with
  | zero => omega
  | succ fuel ih =>
    have hlt : i < attempts := by rw [attempts_eq]; push_cast at hi; omega
    unfold waitLoop
    cases m with
    | zero =>
      simp only [Nat.add_zero] at hstop hping
      simp [hlt, hstop, hping]
    | succ m =>
      have h0 := hbefore 0 (Nat.succ_pos _)
      simp only [Nat.add_zero] at h0
      cases hp : env.Ping k with
      | none => exact absurd hp h0.2
      | some e0 =>
        simp only [hlt, if_true, h0.1]
        rw [ih (i + 1) (some e0) (k + 1) m (by push_cast at hi ⊢; omega) (by omega)
          (fun j hj => by
            have := hbefore (j + 1) (by omega)
            rwa [show k + 1 + j = k + (j + 1) by omega])
          (by rwa [show k + 1 + m = k + (m + 1) by omega])
          (by rwa [show k + 1 + m = k + (m + 1) by omega])]
        simp
        omega

/-- If the attempts before the `m`-th check fail without shutdown and shutdown
is signalled at the `m`-th check, the loop returns there. -/
theorem waitLoop_stopped (env : Env) (fuel : Nat) (i : Int)
    (err : Option String) (k m : Nat) (hi : i + (fuel : Int) = 50) (hm : m < fuel)
    (hbefore : ∀ j, j < m → env.Stop (k + j) = false ∧ env.Ping (k + j) ≠ none)
    (hstop : env.Stop (k + m) = true) :
    waitLoop env fuel i err k = Wait.exited (k + m) := by
  induction fuel generalizing i err k m with
  | zero => omega
  | succ fuel ih =>
    have hlt : i < attempts := by rw [attempts_eq]; push_cast at hi; omega
    unfold waitLoop
    cases m with
    | zero =>
      simp only [Nat.add_zero] at hstop
      simp [hlt, hstop]
    | succ m =>
      have h0 := hbefore 0 (Nat.succ_pos _)
      simp only [Nat.add_zero] at h0
      cases hp : env.Ping k with
      | none => exact absurd hp h0.2
      | some e0 =>
        simp only [hlt, if_true, h0.1]
        rw [ih (i + 1) (some e0) (k + 1) m (by push_cast at hi ⊢; omega) (by omega)
          (fun j hj => by
            have := hbefore (j + 1) (by omega)
            rwa [show k + 1 + j = k + (j + 1) by omega])
          (by rwa [show k + 1 + m = k + (m + 1) by omega])]
        simp
        omega

/-- What `Start` returns once both commands are launched, in terms of how
the loop is left. -/
theorem Start_of_launched (env : Env) (cfg : Config) (haCmd dpCmd : Cmd)
    (hha : env.runCommand cfg.HAProxyPath (haproxyArgs cfg) = Except.ok haCmd)
    (hdp : env.runCommand cfg.DataplanePath (dataplaneArgs cfg haCmd.Pid) = Except.ok dpCmd) :
    Start env cfg =
      match waitLoop env attempts.toNat 0 none 0 with
      | Wait.exited pings => { client := none, err := some "exited", pings := pings }
      | Wait.finished (some e) pings =>
        { client := none, err := some ("timeout waiting for dataplaneapi: " ++ e),
          pings := pings }
      | Wait.finished none pings =>
        { client := some (newClient cfg), err := none, pings := pings } := by
  simp [Start, hha, hdp]

/-- C10: once both processes are launched, (a) if shutdown is never signalled,
`Start` calls `Ping` at most 50 times, returns the client and a nil error if
and only if one of the first 50 attempts succeeds, stops right after the first
success, and after 50 failures returns a nil client and the error "timeout
waiting for dataplaneapi: " followed by the last `Ping` error; (b) if shutdown
is signalled at the check before an attempt, all earlier attempts having
failed, `Start` returns a nil client and the error "exited" without another
call to `Ping`. -/
theorem Start_polls_until_ready (env : Env) (cfg : Config) (haCmd dpCmd : Cmd)
    (hha : env.runCommand cfg.HAProxyPath (haproxyArgs cfg) = Except.ok haCmd)
    (hdp : env.runCommand cfg.DataplanePath (dataplaneArgs cfg haCmd.Pid) = Except.ok dpCmd) :
    ((∀ k, env.Stop k = false) →
      (Start env cfg).pings ≤ 50 ∧
      (((Start env cfg).client = some (newClient cfg) ∧ (Start env cfg).err = none) ↔
        ∃ m, m < 50 ∧ env.Ping m = none) ∧
      (∀ m, m < 50 → (∀ j, j < m → env.Ping j ≠ none) → env.Ping m = none →
        Start env cfg = { client := some (newClient cfg), err := none, pings := m + 1 }) ∧
      (∀ e, (∀ j, j < 50 → env.Ping j ≠ none) → env.Ping 49 = some e →
        Start env cfg =
          { client := none, err := some ("timeout waiting for dataplaneapi: " ++ e),
            pings := 50 })) ∧
    (∀ m, m < 50 → (∀ j, j < m → env.Stop j = false ∧ env.Ping j ≠ none) →
      env.Stop m = true →
      Start env cfg = { client := none, err := some "exited", pings := m }) := by
  have hstart := Start_of_launched env cfg haCmd dpCmd hha hdp
  have hfuel : attempts.toNat = 50 := by rw [attempts_eq]; rfl
  rw [hfuel] at hstart
  have hsuccess : ∀ m, m < 50 → (∀ j, j < m → env.Stop j = false ∧ env.Ping j ≠ none) →
      env.Stop m = false → env.Ping m = none →
      Start env cfg = { client := some (newClient cfg), err := none, pings := m + 1 } := by
    intro m hm hbefore hstop hping
    have := waitLoop_first_success env 50 0 none 0 m (by norm_num) hm
      (by simpa using hbefore) (by simpa using hstop) (by simpa using hping)
    rw [hstart, this]
    simp
  have htimeout : ∀ e, (∀ j, j < 50 → env.Stop j = false ∧ env.Ping j ≠ none) →
      env.Ping 49 = some e →
      Start env cfg =
        { client := none, err := some ("timeout waiting for dataplaneapi: " ++ e),
          pings := 50 } := by
    intro e hall h49
    have := waitLoop_all_fail env 50 0 none 0 (by norm_num) (by simpa using hall)
    rw [hstart, this]
    simp [h49]
  refine ⟨?_, ?_⟩
  · intro hnostop
    refine ⟨?_, ?_, ?_, ?_⟩
    · rw [hstart]
      have hb := waitLoop_pings_le env 50 0 none 0
      cases hw : waitLoop env 50 0 none 0 with
      | exited p => have := hb.1 p hw; simpa using this
      | finished e p =>
        have := hb.2 e p hw
        cases e <;> simpa using this
    · constructor
      · rintro ⟨hclient, -⟩
        by_contra hnone
        have hall : ∀ j, j < 50 → env.Stop j = false ∧ env.Ping j ≠ none := by
          intro j hj
          exact ⟨hnostop j, fun h => hnone ⟨j, hj, h⟩⟩
        cases h49 : env.Ping 49 with
        | none => exact (hall 49 (by norm_num)).2 h49
        | some e =>
          rw [htimeout e hall h49] at hclient
          simp at hclient
      · intro hex
        classical
        have hleast := Nat.find_spec hex
        have hmin := fun j (hj : j < Nat.find hex) => Nat.find_min hex hj
        have := hsuccess (Nat.find hex) hleast.1
          (fun j hj => ⟨hnostop j, fun h => hmin j hj ⟨by omega, h⟩⟩)
          (hnostop _) hleast.2
        rw [this]
        exact ⟨rfl, rfl⟩
    · intro m hm hbefore hping
      exact hsuccess m hm (fun j hj => ⟨hnostop j, hbefore j hj⟩) (hnostop m) hping
    · intro e hall h49
      exact htimeout e (fun j hj => ⟨hnostop j, hall j hj⟩) h49
  · intro m hm hbefore hstop
    have := waitLoop_stopped env 50 0 none 0 m (by norm_num) hm
      (by simpa using hbefore) (by simpa using hstop)
    rw [hstart, this]
    simp

/-- C10 where `Ping` fails three times and then succeeds: with no shutdown
`Start` returns the client after four calls; with shutdown signalled at the
check after two calls it returns "exited" after those two. -/
theorem Start_polls_until_ready_witness :
    Start (envUpAfter 3 none) { DataplaneSock := "/run/dp.sock" } =
        { client := some (newClient { DataplaneSock := "/run/dp.sock" }), err := none,
          pings := 4 } ∧
      Start (envUpAfter 3 (some 2)) { DataplaneSock := "/run/dp.sock" } =
        { client := none, err := some "exited", pings := 2 } :=
  ⟨((Start_polls_until_ready (envUpAfter 3 none) { DataplaneSock := "/run/dp.sock" }
        { Pid := 4242 } { Pid := 4242 } rfl rfl).1
      (fun _ => rfl)).2.2.1 3 (by norm_num)
      (by intro j hj; simp [envUpAfter, hj]) (by simp [envUpAfter]),
    (Start_polls_until_ready (envUpAfter 3 (some 2)) { DataplaneSock := "/run/dp.sock" }
        { Pid := 4242 } { Pid := 4242 } rfl rfl).2 2 (by norm_num)
      (by
        intro j hj
        have hj3 : j < 3 := by omega
        simp [envUpAfter, hj, hj3])
      (by simp [envUpAfter])⟩

end haproxy_cmd

/-! ## Theorems: the generator and the slot pool -/

namespace state

/-! ### What `Generate` returns -/

/-- The pairs `generateUpstreams` returns when the store resolves every
upstream's requirement. -/
theorem generateUpstreams_ok (opts : Options) (certStore : CertificateStore)
    (oldState : State) (ups : List consul.Upstream)
    (hcert : ∀ u ∈ ups, ∃ p, certStore u.TLS = Except.ok p) :
    generateUpstreams opts certStore oldState ups =
      Except.ok (ups.map (fun u =>
        (upstreamFrontend opts u, upstreamBackendOf opts certStore oldState u))) := by
  induction ups with
  | nil => rfl
  | cons u rest ih =>
    obtain ⟨⟨ca, crt⟩, hp⟩ := hcert u (List.mem_cons_self _ _)
    have ihr := ih (fun v hv => hcert v (List.mem_cons_of_mem _ hv))
    simp only [generateUpstreams, hp, ihr, List.map_cons, upstreamBackendOf, pathsOf]

/-- When `generateUpstreams` succeeds, the store resolved every upstream's
requirement. -/
theorem generateUpstreams_certs (opts : Options) (certStore : CertificateStore)
    (oldState : State) (ups : List consul.Upstream) (pairs : List (Frontend × Backend))
    (h : generateUpstreams opts certStore oldState ups = Except.ok pairs) :
    ∀ u ∈ ups, ∃ p, certStore u.TLS = Except.ok p := by
  induction ups generalizing pairs with
  | nil => intro u hu; simp at hu
  | cons v rest ih =>
    intro u hu
    unfold generateUpstreams at h
    cases hv : certStore v.TLS with
    | error e => rw [hv] at h; simp at h
    | ok p =>
      rw [hv] at h
      cases hr : generateUpstreams opts certStore oldState rest with
      | error e => rw [hr] at h; simp at h
      | ok ps =>
        rcases List.mem_cons.1 hu with rfl | hu'
        · exact ⟨p, hv⟩
        · exact ih ps hr u hu'

/-- The generator `Generate` succeeds exactly when the pair names are distinct
and the store resolves the downstream's and every upstream's requirement, and
then returns `assemble`. -/
theorem Generate_eq_ok_iff (k : Constants) (opts : Options) (certStore : CertificateStore)
    (oldState : State) (cfg : consul.Config) (N : State) :
    Generate k opts certStore oldState cfg = Except.ok N ↔
      (pairNames cfg).Nodup ∧
      (∃ p, certStore cfg.Downstream.TLS = Except.ok p) ∧
      (∀ u ∈ cfg.Upstreams, ∃ p, certStore u.TLS = Except.ok p) ∧
      N = assemble k opts certStore oldState cfg := by
  constructor
  · intro h
    unfold Generate at h
    by_cases hn : (pairNames cfg).Nodup
    · rw [if_neg (not_not.2 hn)] at h
      cases hd : certStore cfg.Downstream.TLS with
      | error e => rw [hd] at h; simp at h
      | ok p =>
        obtain ⟨ca, crt⟩ := p
        rw [hd] at h
        cases hu : generateUpstreams opts certStore oldState cfg.Upstreams with
        | error e => rw [hu] at h; simp at h
        | ok pairs =>
          have hcert := generateUpstreams_certs opts certStore oldState _ pairs hu
          have hu2 := hu
          rw [generateUpstreams_ok opts certStore oldState _ hcert] at hu2
          have hpairs := (Except.ok.inj hu2).symm
          rw [hu] at h
          refine ⟨hn, ⟨(ca, crt), rfl⟩, hcert, ?_⟩
          have hN := (Except.ok.inj h).symm
          rw [hN, hpairs]
          simp [assemble, assembleUnsorted, pathsOf, hd, List.map_map, Function.comp_def]
    · rw [if_pos hn] at h
      simp at h
  · rintro ⟨hn, ⟨⟨ca, crt⟩, hd⟩, hcert, rfl⟩
    unfold Generate
    rw [if_neg (not_not.2 hn), hd, generateUpstreams_ok opts certStore oldState _ hcert]
    simp [assemble, assembleUnsorted, pathsOf, hd, List.map_map, Function.comp_def]

/-! ### Looking a backend up in a generated snapshot -/

/-- In a list whose names are distinct, looking a name up finds the element
bearing it. -/
theorem find?_of_mem_of_nodup {α κ : Type} [DecidableEq κ] (name : α → κ) (l : List α)
    (x : κ) (b : α) (hnd : (l.map name).Nodup) (hb : b ∈ l) (hx : name b = x) :
    l.find? (fun a => decide (name a = x)) = some b := by
  induction l with
  | nil => simp at hb
  | cons a rest ih =>
    rw [List.map_cons, List.nodup_cons] at hnd
    rcases List.mem_cons.1 hb with rfl | hb'
    · simp [List.find?, hx]
    · have hne : name a ≠ x := by
        intro ha
        apply hnd.1
        rw [ha, ← hx]
        exact List.mem_map_of_mem name hb'
      simp only [List.find?, hne, decide_False]
      exact ih hnd.2 hb'

/-- Backend names determine the upstream name. -/
theorem backendName_injective : Function.Injective backendName := by
  intro a b h
  have hd := congrArg String.data h
  simp only [backendName, String.data_append] at hd
  exact String.ext (List.append_cancel_left hd)

/-- No upstream's backend is called `spoe_back`. -/
theorem backendName_ne_spoe (x : String) : backendName x ≠ "spoe_back" := by
  intro h
  have hd := congrArg String.data h
  simp [backendName, String.data_append] at hd

/-- The backend names of a generated snapshot, before sorting. -/
theorem assembleUnsorted_backend_names (k : Constants) (opts : Options)
    (certStore : CertificateStore) (oldState : State) (cfg : consul.Config) :
    (assembleUnsorted k opts certStore oldState cfg).Backends.map (fun b => b.Backend.Name) =
      (pairNames cfg).map backendName ++
        (if opts.EnableIntentions then ["spoe_back"] else []) := by
  simp only [assembleUnsorted, pairNames, List.map_cons, List.map_append, List.map_map,
    List.cons_append]
  congr 1
  congr 1
  split <;> rfl

/-- The backend names of a generated snapshot, before sorting, are distinct
when the pair names are. -/
theorem assembleUnsorted_backend_names_nodup (k : Constants) (opts : Options)
    (certStore : CertificateStore) (oldState : State) (cfg : consul.Config)
    (hn : (pairNames cfg).Nodup) :
    ((assembleUnsorted k opts certStore oldState cfg).Backends.map
      (fun b => b.Backend.Name)).Nodup := by
  rw [assembleUnsorted_backend_names]
  apply List.Nodup.append (hn.map backendName_injective)
  · split
    · exact List.nodup_singleton _
    · exact List.nodup_nil
  · intro x hx hx'
    split at hx'
    · rw [List.mem_singleton] at hx'
      obtain ⟨y, -, hy⟩ := List.mem_map.1 hx
      exact backendName_ne_spoe y (hy.trans hx')
    · simp at hx'

/-- The slots of an upstream's backend in a generated snapshot are those the
slot pool makes of the previous slots of that backend and the desired nodes. -/
theorem backendSlots_assemble (k : Constants) (opts : Options)
    (certStore : CertificateStore) (oldState : State) (cfg : consul.Config)
    (hn : (pairNames cfg).Nodup) (u : consul.Upstream) (hu : u ∈ cfg.Upstreams) :
    backendSlots (assemble k opts certStore oldState cfg) (backendName u.Name) =
      slotPool (pathsOf certStore u.TLS).1 (pathsOf certStore u.TLS).2
        (backendSlots oldState (backendName u.Name)) u.Nodes := by
  have hperm : (assemble k opts certStore oldState cfg).Backends.Perm
      (assembleUnsorted k opts certStore oldState cfg).Backends :=
    List.perm_insertionSort _ _
  have hnd : ((assemble k opts certStore oldState cfg).Backends.map
      (fun b => b.Backend.Name)).Nodup :=
    (List.Perm.nodup_iff (hperm.map _)).2
      (assembleUnsorted_backend_names_nodup k opts certStore oldState cfg hn)
  have hmem : upstreamBackendOf opts certStore oldState u ∈
      (assemble k opts certStore oldState cfg).Backends := by
    rw [hperm.mem_iff]
    simp only [assembleUnsorted, List.cons_append, List.mem_cons, List.mem_append,
      List.mem_map]
    exact Or.inr (Or.inl ⟨u, hu, rfl⟩)
  have hfind := find?_of_mem_of_nodup (fun b : Backend => b.Backend.Name) _
    (backendName u.Name) _ hnd hmem rfl
  unfold backendSlots
  rw [hfind]
  rfl

end state

/-! ### The slot pool -/

namespace state

/-- Stamping twice is stamping with the later paths. -/
theorem stamp_stamp (ca crt ca' crt' : String) (s : models.Server) :
    stamp ca crt (stamp ca' crt' s) = stamp ca crt s := rfl

/-- Stamping leaves the identity of a slot alone. -/
theorem slotKey_stamp (ca crt : String) (s : models.Server) :
    slotKey (stamp ca crt s) = slotKey s := rfl

/-- Stamping leaves the flag of a slot alone. -/
theorem isActive_stamp (ca crt : String) (s : models.Server) :
    isActive (stamp ca crt s) = isActive s := rfl

/-- The pass over the existing slots, at an active slot. -/
theorem reuseSlots_cons_active (nodes : List consul.UpstreamNode) (s : models.Server)
    (rest : List models.Server) (pending : List consul.UpstreamNode)
    (hact : isActive s = true) :
    reuseSlots nodes (s :: rest) pending =
      refreshSlot nodes s :: reuseSlots nodes rest pending := by
  cases pending with
  | nil => simp [reuseSlots, hact]
  | cons n pending => simp [reuseSlots, hact]

/-- The pass over the existing slots, at a placeholder with nothing pending. -/
theorem reuseSlots_cons_idle (nodes : List consul.UpstreamNode) (s : models.Server)
    (rest : List models.Server) (hact : isActive s = false) :
    reuseSlots nodes (s :: rest) [] = s :: reuseSlots nodes rest [] := by
  simp [reuseSlots, hact]

/-- The pass over the existing slots, at a placeholder with a destination
pending. -/
theorem reuseSlots_cons_assign (nodes : List consul.UpstreamNode) (s : models.Server)
    (rest : List models.Server) (n : consul.UpstreamNode)
    (pending : List consul.UpstreamNode) (hact : isActive s = false) :
    reuseSlots nodes (s :: rest) (n :: pending) =
      activate s.Name n :: reuseSlots nodes rest pending := by
  simp [reuseSlots, hact]

/-- Refreshing a slot keeps its name. -/
theorem refreshSlot_name (nodes : List consul.UpstreamNode) (s : models.Server) :
    (refreshSlot nodes s).Name = s.Name := by
  unfold refreshSlot
  split <;> rfl

/-- The pass over the existing slots returns as many slots as it is given. -/
theorem reuseSlots_length (nodes : List consul.UpstreamNode) (old : List models.Server)
    (pending : List consul.UpstreamNode) :
    (reuseSlots nodes old pending).length = old.length := by
  induction old generalizing pending with
  | nil => rfl
  | cons s rest ih =>
    cases hact : isActive s with
    | true => simp [reuseSlots_cons_active _ _ _ _ hact, ih]
    | false =>
      cases pending with
      | nil => simp [reuseSlots_cons_idle _ _ _ hact, ih]
      | cons n pending => simp [reuseSlots_cons_assign _ _ _ _ _ hact, ih]

/-- The pass over the existing slots keeps every name in its place. -/
theorem reuseSlots_names (nodes : List consul.UpstreamNode) (old : List models.Server)
    (pending : List consul.UpstreamNode) :
    (reuseSlots nodes old pending).map (fun s => s.Name) = old.map (fun s => s.Name) := by
  induction old generalizing pending with
  | nil => rfl
  | cons s rest ih =>
    cases hact : isActive s with
    | true => simp [reuseSlots_cons_active _ _ _ _ hact, ih, refreshSlot_name]
    | false =>
      cases pending with
      | nil => simp [reuseSlots_cons_idle _ _ _ hact, ih]
      | cons n pending => simp [reuseSlots_cons_assign _ _ _ _ _ hact, ih, activate]

/-- What the pass makes of an active slot, whatever is pending. -/
theorem reuseSlots_active (nodes : List consul.UpstreamNode) (old : List models.Server)
    (pending : List consul.UpstreamNode) (i : Nat) (s : models.Server)
    (hs : old[i]? = some s) (hact : isActive s = true) :
    (reuseSlots nodes old pending)[i]? = some (refreshSlot nodes s) := by
  induction old generalizing pending i with
  | nil => simp at hs
  | cons t rest ih =>
    cases i with
    | zero =>
      simp only [List.getElem?_cons_zero, Option.some.injEq] at hs
      subst hs
      simp [reuseSlots_cons_active _ _ _ _ hact]
    | succ i =>
      simp only [List.getElem?_cons_succ] at hs
      cases ht : isActive t with
      | true =>
        simp only [reuseSlots_cons_active _ _ _ _ ht, List.getElem?_cons_succ]
        exact ih pending i hs
      | false =>
        cases pending with
        | nil =>
          simp only [reuseSlots_cons_idle _ _ _ ht, List.getElem?_cons_succ]
          exact ih [] i hs
        | cons n pending =>
          simp only [reuseSlots_cons_assign _ _ _ _ _ ht, List.getElem?_cons_succ]
          exact ih pending i hs

/-- The slot pool never returns fewer slots than it is given. -/
theorem slotPool_length_ge (ca crt : String) (old : List models.Server)
    (nodes : List consul.UpstreamNode) :
    old.length ≤ (slotPool ca crt old nodes).length := by
  simp [slotPool, reuseSlots_length]

/-- The slot pool keeps every existing name in its place. -/
theorem slotPool_name (ca crt : String) (old : List models.Server)
    (nodes : List consul.UpstreamNode) (i : Nat) (s : models.Server)
    (hs : old[i]? = some s) :
    ∃ s', (slotPool ca crt old nodes)[i]? = some s' ∧ s'.Name = s.Name := by
  have hi : i < old.length := by
    rcases Nat.lt_or_ge i old.length with h | h
    · exact h
    · rw [List.getElem?_eq_none h] at hs; simp at hs
  have hlen := reuseSlots_length nodes old (unmet old nodes)
  have hnames := reuseSlots_names nodes old (unmet old nodes)
  have hi' : i < (reuseSlots nodes old (unmet old nodes)).length := by omega
  refine ⟨stamp ca crt ((reuseSlots nodes old (unmet old nodes))[i]), ?_, ?_⟩
  · simp only [slotPool, List.getElem?_map, List.getElem?_append_left hi',
      List.getElem?_eq_getElem hi', Option.map_some']
  · have h1 : ((reuseSlots nodes old (unmet old nodes)).map (fun s => s.Name))[i]? =
        (old.map (fun s => s.Name))[i]? := by rw [hnames]
    simp only [List.getElem?_map, List.getElem?_eq_getElem hi', hs, Option.map_some',
      Option.some.injEq] at h1
    exact h1

/-- What the slot pool makes of an active slot. -/
theorem slotPool_active (ca crt : String) (old : List models.Server)
    (nodes : List consul.UpstreamNode) (i : Nat) (s : models.Server)
    (hs : old[i]? = some s) (hact : isActive s = true) :
    (slotPool ca crt old nodes)[i]? =
      some (stamp ca crt (refreshSlot nodes s)) := by
  have hi : i < old.length := by
    rcases Nat.lt_or_ge i old.length with h | h
    · exact h
    · rw [List.getElem?_eq_none h] at hs; simp at hs
  have hlen := reuseSlots_length nodes old (unmet old nodes)
  have hi' : i < (reuseSlots nodes old (unmet old nodes)).length := by omega
  have h := reuseSlots_active nodes old (unmet old nodes) i s hs hact
  simp only [slotPool, List.getElem?_map, List.getElem?_append_left hi', h, Option.map_some']

end state

namespace state

set_option maxRecDepth 100000

/-- The test `TestSnapshotDownstream` (`snapshot_test.go`, lines 230-235),
with sample values for the constants. -/
theorem TestSnapshotDownstream :
    Generate sampleConstants TestOpts TestCertStore {} (GetTestConsulConfig sampleConstants) =
      Except.ok (GetTestHAConfig sampleConstants "/" "") := by
  decide

/-- The slots of the fixture's upstream backend. -/
theorem backendSlots_fixture (certVersion : String) :
    backendSlots (GetTestHAConfig sampleConstants "/" certVersion) "back_service_1" =
      [testSlot "srv_0" nodeA certVersion, testSlot "srv_1" nodeB certVersion] := by
  rfl

/-- The first part of `TestServerUpdate` (`snapshot_test.go`, lines 237-252):
with the first node gone, `srv_0` is a placeholder and `srv_1` is as before. -/
theorem TestServerUpdate_remove :
    Generate sampleConstants TestOpts TestCertStore (GetTestHAConfig sampleConstants "/" "")
        (withNodes (GetTestConsulConfig sampleConstants) [nodeB]) =
      Except.ok (withServers (GetTestHAConfig sampleConstants "/" "") 1
        [testPlaceholder "srv_0" "", testSlot "srv_1" nodeB ""]) := by
  decide

/-- C6 as stated fails: from the fixture snapshot stamped by the resolver with
suffix "1", with the resolver now at suffix "2" and the desired list
`[1.2.3.4:8080 weight 7]`, the slot `srv_0`, whose (address, port) is still
desired, does not stay as it was (it takes weight 7 and the new paths), and the
placeholder made of `srv_1` does not keep its TLS fields (it takes the new
paths). -/
theorem slot_reuse_on_removal_counterexample :
    backendSlots (GetTestHAConfig sampleConstants "/" "1") "back_service_1" =
        [testSlot "srv_0" nodeA "1", testSlot "srv_1" nodeB "1"] ∧
      nodeKey { nodeA with Weight := 7 } = slotKey (testSlot "srv_0" nodeA "1") ∧
      (Generate sampleConstants TestOpts (fakeCertStore "2")
          (GetTestHAConfig sampleConstants "/" "1")
          (withNodes (GetTestConsulConfig sampleConstants) [{ nodeA with Weight := 7 }])).map
        (fun N => backendSlots N "back_service_1") =
        Except.ok [testSlot "srv_0" { nodeA with Weight := 7 } "2",
          testPlaceholder "srv_1" "2"] ∧
      testSlot "srv_0" { nodeA with Weight := 7 } "2" ≠ testSlot "srv_0" nodeA "1" ∧
      (testPlaceholder "srv_1" "2").SslCafile ≠ (testSlot "srv_1" nodeB "1").SslCafile := by
  refine ⟨rfl, rfl, ?_, ?_, ?_⟩ <;> decide

/-- C6, amended: when `Generate` succeeds, for an upstream `u` with resolved
paths `(ca, crt)`, the slots of its backend are never fewer than before and
every previous slot keeps its index and name; an active slot whose (address,
port) is no longer desired becomes, at its index and under its name, the
placeholder 127.0.0.1, port 1, weight 1, in maintenance, carrying the resolved
paths; an active slot whose (address, port) is still desired keeps index, name,
address, port and flag, takes the weight of the first desired node with its
(address, port) and carries the resolved paths, so that it is unchanged when
it had that weight and those paths already. -/
theorem Generate_converts_in_place (k : Constants) (opts : Options)
    (certStore : CertificateStore) (oldState : State) (cfg : consul.Config) (N : State)
    (u : consul.Upstream)
    (hgen : Generate k opts certStore oldState cfg = Except.ok N)
    (hu : u ∈ cfg.Upstreams) :
    ∃ ca crt, certStore u.TLS = Except.ok (ca, crt) ∧
      (backendSlots oldState (backendName u.Name)).length ≤
        (backendSlots N (backendName u.Name)).length ∧
      ∀ (i : Nat) (s : models.Server),
        (backendSlots oldState (backendName u.Name))[i]? = some s →
        (∃ s' : models.Server, (backendSlots N (backendName u.Name))[i]? = some s' ∧ s'.Name = s.Name) ∧
        (isActive s = true → (∀ n ∈ u.Nodes, nodeKey n ≠ slotKey s) →
          (backendSlots N (backendName u.Name))[i]? =
            some ({ Name := s.Name
                    Address := "127.0.0.1"
                    Port := some 1
                    Weight := some 1
                    Ssl := models.ServerSsl.enabled
                    SslCafile := ca
                    SslCertificate := crt
                    Verify := models.Verify.required
                    Maintenance := models.Maintenance.enabled } : models.Server)) ∧
        (isActive s = true →
          ∀ n : consul.UpstreamNode,
            u.Nodes.find? (fun n => decide (nodeKey n = slotKey s)) = some n →
            (backendSlots N (backendName u.Name))[i]? =
              some ({ s with
                      Weight := some n.Weight
                      Ssl := models.ServerSsl.enabled
                      SslCafile := ca
                      SslCertificate := crt
                      Verify := models.Verify.required } : models.Server) ∧
            (s.Weight = some n.Weight → stamp ca crt s = s →
              (backendSlots N (backendName u.Name))[i]? = some s)) := by
  obtain ⟨hn, -, hcert, rfl⟩ := (Generate_eq_ok_iff k opts certStore oldState cfg N).1 hgen
  obtain ⟨⟨ca, crt⟩, hp⟩ := hcert u hu
  have hslots := backendSlots_assemble k opts certStore oldState cfg hn u hu
  have hpaths : pathsOf certStore u.TLS = (ca, crt) := by simp [pathsOf, hp]
  rw [hpaths] at hslots
  refine ⟨ca, crt, hp, ?_, ?_⟩
  · rw [hslots]
    exact slotPool_length_ge _ _ _ _
  · intro i s hs
    rw [hslots]
    refine ⟨slotPool_name ca crt _ u.Nodes i s hs, ?_, ?_⟩
    · intro hact hgone
      rw [slotPool_active ca crt _ u.Nodes i s hs hact]
      have hnone : u.Nodes.find? (fun n => decide (nodeKey n = slotKey s)) = none := by
        rw [List.find?_eq_none]
        intro n hn'
        simpa using hgone n hn'
      simp [refreshSlot, hnone, stamp, placeholder]
    · intro hact n hfind
      rw [slotPool_active ca crt _ u.Nodes i s hs hact]
      refine ⟨by simp [refreshSlot, hfind, stamp], ?_⟩
      intro hw hst
      have hself : ({ s with Weight := some n.Weight } : models.Server) = s := by
        rw [← hw]
      simp only [refreshSlot, hfind, hself, hst]

/-- C6, amended, on the first part of `TestServerUpdate`: `srv_0` becomes a
placeholder in place and `srv_1` is unchanged. -/
theorem Generate_converts_in_place_witness :
    (backendSlots (GetTestHAConfig sampleConstants "/" "") (backendName "service_1"))[0]?
        = some (testSlot "srv_0" nodeA "") ∧
      (backendSlots (GetTestHAConfig sampleConstants "/" "") (backendName "service_1"))[1]?
        = some (testSlot "srv_1" nodeB "") ∧
      ∃ N, Generate sampleConstants TestOpts TestCertStore
          (GetTestHAConfig sampleConstants "/" "")
          (withNodes (GetTestConsulConfig sampleConstants) [nodeB]) = Except.ok N ∧
        (backendSlots N (backendName "service_1"))[0]? = some (testPlaceholder "srv_0" "") ∧
        (backendSlots N (backendName "service_1"))[1]? = some (testSlot "srv_1" nodeB "") := by
  have hgen : Generate sampleConstants TestOpts TestCertStore
      (GetTestHAConfig sampleConstants "/" "")
      (withNodes (GetTestConsulConfig sampleConstants) [nodeB]) =
      Except.ok (assemble sampleConstants TestOpts TestCertStore
        (GetTestHAConfig sampleConstants "/" "")
        (withNodes (GetTestConsulConfig sampleConstants) [nodeB])) := by
    decide
  obtain ⟨ca, crt, hp, -, hslot⟩ :=
    Generate_converts_in_place sampleConstants TestOpts TestCertStore
      (GetTestHAConfig sampleConstants "/" "")
      (withNodes (GetTestConsulConfig sampleConstants) [nodeB]) _
      { testUpstream with Nodes := [nodeB] } hgen (by decide)
  have hpaths : ca = "//ca" ∧ crt = "//cert" := by
    have := Except.ok.inj hp
    simp [fakeCertStore] at this
    exact ⟨this.1.symm, this.2.symm⟩
  obtain ⟨rfl, rfl⟩ := hpaths
  refine ⟨rfl, rfl, _, hgen, ?_, ?_⟩
  · exact (hslot 0 (testSlot "srv_0" nodeA "") rfl).2.1 rfl (by decide)
  · exact ((hslot 1 (testSlot "srv_1" nodeB "") rfl).2.2 rfl nodeB rfl).2 rfl rfl

end state

namespace state

/-- With no placeholder among the existing slots, the pass refreshes each of
them. -/
theorem reuseSlots_of_all_active (nodes : List consul.UpstreamNode)
    (old : List models.Server) (pending : List consul.UpstreamNode)
    (hactive : ∀ s ∈ old, isActive s = true) :
    reuseSlots nodes old pending = old.map (refreshSlot nodes) := by
  induction old with
  | nil => rfl
  | cons s rest ih =>
    rw [reuseSlots_cons_active _ _ _ _ (hactive s (List.mem_cons_self _ _)), List.map_cons,
      ih (fun t ht => hactive t (List.mem_cons_of_mem _ ht))]

/-- A slot is refreshed to itself when the first desired node of its (address,
port) has its weight. -/
theorem refreshSlot_of_found (nodes : List consul.UpstreamNode) (s : models.Server)
    (hkeep : ∃ n, nodes.find? (fun n => decide (nodeKey n = slotKey s)) = some n ∧
      s.Weight = some n.Weight) :
    refreshSlot nodes s = s := by
  obtain ⟨n, hfind, hw⟩ := hkeep
  unfold refreshSlot
  rw [hfind]
  show ({ s with Weight := some n.Weight } : models.Server) = s
  rw [← hw]

/-- A slot whose destination is desired with the slot's weight is refreshed to
itself, the desired list having no two nodes of one (host, port). -/
theorem refreshSlot_of_kept (nodes : List consul.UpstreamNode) (s : models.Server)
    (hset : (nodes.map nodeKey).Nodup)
    (hkeep : ∃ n ∈ nodes, nodeKey n = slotKey s ∧ s.Weight = some n.Weight) :
    refreshSlot nodes s = s := by
  obtain ⟨n, hn, hkey, hw⟩ := hkeep
  exact refreshSlot_of_found nodes s
    ⟨n, find?_of_mem_of_nodup nodeKey nodes (slotKey s) n hset hn hkey, hw⟩

/-- The slots appended for a non-empty rest. -/
theorem growSlots_of_ne_nil (capacity : Nat) (rest : List consul.UpstreamNode)
    (hrest : rest ≠ []) :
    growSlots capacity rest =
      (rest.enum.map (fun p => activate (slotName (capacity + p.1)) p.2)) ++
        ((List.range (max (capacity * 2) (capacity + rest.length) -
            (capacity + rest.length))).map
          (fun j => placeholder (slotName (capacity + rest.length + j)))) := by
  simp [growSlots, hrest, grownCapacity]

/-- The last part of `TestServerUpdate` (`snapshot_test.go`, lines 259-295):
a third node makes the pool of two grow to four slots. -/
theorem TestServerUpdate_add :
    Generate sampleConstants TestOpts TestCertStore (GetTestHAConfig sampleConstants "/" "")
        (withNodes (GetTestConsulConfig sampleConstants) [nodeA, nodeB, nodeC]) =
      Except.ok (withServers (GetTestHAConfig sampleConstants "/" "") 1
        [testSlot "srv_0" nodeA "", testSlot "srv_1" nodeB "",
          testSlot "srv_2" nodeC "", testPlaceholder "srv_3" ""]) := by
  decide

end state

namespace state

/-- No desired destination is unmet when each has an active slot. -/
theorem unmet_eq_nil (old : List models.Server) (nodes : List consul.UpstreamNode)
    (hcover : ∀ n ∈ nodes, ∃ s ∈ old, isActive s = true ∧ slotKey s = nodeKey n) :
    unmet old nodes = [] := by
  unfold unmet
  rw [List.filter_eq_nil_iff]
  intro n hn
  obtain ⟨s, hs, hact, hkey⟩ := hcover n hn
  simp only [matched, Bool.not_eq_true', Bool.not_eq_false, List.any_eq_true,
    Bool.and_eq_true, decide_eq_true_eq]
  exact ⟨s, hs, hact, hkey⟩

/-- The slot pool on slots that are all active, all kept by the desired list
with their weight, and cover the desired list: the same slots, stamped. -/
theorem slotPool_settled (ca crt : String) (old : List models.Server)
    (nodes : List consul.UpstreamNode)
    (hactive : ∀ s ∈ old, isActive s = true)
    (hset : (nodes.map nodeKey).Nodup)
    (hkeep : ∀ s ∈ old, ∃ n ∈ nodes, nodeKey n = slotKey s ∧ s.Weight = some n.Weight)
    (hcover : ∀ n ∈ nodes, ∃ s ∈ old, slotKey s = nodeKey n) :
    slotPool ca crt old nodes = old.map (stamp ca crt) := by
  have hunmet : unmet old nodes = [] :=
    unmet_eq_nil old nodes (fun n hn => by
      obtain ⟨s, hs, hkey⟩ := hcover n hn
      exact ⟨s, hs, hactive s hs, hkey⟩)
  have hrefresh : old.map (refreshSlot nodes) = old := by
    conv_rhs => rw [← List.map_id old]
    apply List.map_congr_left
    intro s hs
    exact refreshSlot_of_kept nodes s hset (hkeep s hs)
  unfold slotPool
  rw [hunmet, reuseSlots_of_all_active nodes old _ hactive, hrefresh]
  simp [leftover, growSlots]

/-- The generated snapshot depends on the previous one only through the slot
pools of the upstreams. -/
theorem assemble_congr (k : Constants) (opts : Options) (certStore : CertificateStore)
    (S S' : State) (cfg : consul.Config)
    (h : ∀ u ∈ cfg.Upstreams,
      slotPool (pathsOf certStore u.TLS).1 (pathsOf certStore u.TLS).2
          (backendSlots S (backendName u.Name)) u.Nodes =
        slotPool (pathsOf certStore u.TLS).1 (pathsOf certStore u.TLS).2
          (backendSlots S' (backendName u.Name)) u.Nodes) :
    assemble k opts certStore S cfg = assemble k opts certStore S' cfg := by
  have hmap : cfg.Upstreams.map (upstreamBackendOf opts certStore S) =
      cfg.Upstreams.map (upstreamBackendOf opts certStore S') := by
    apply List.map_congr_left
    intro u hu
    simp only [upstreamBackendOf, upstreamBackend, h u hu]
  simp only [assemble, assembleUnsorted, hmap]

/-- The test `TestCertificateUpgrade` (`snapshot_test.go`, lines 298-308). -/
theorem TestCertificateUpgrade :
    Generate sampleConstants TestOpts (fakeCertStore "1") {}
        (GetTestConsulConfig sampleConstants) =
        Except.ok (GetTestHAConfig sampleConstants "/" "1") ∧
      Generate sampleConstants TestOpts (fakeCertStore "2")
        (GetTestHAConfig sampleConstants "/" "1") (GetTestConsulConfig sampleConstants) =
        Except.ok (GetTestHAConfig sampleConstants "/" "2") := by
  constructor <;> decide

end state

namespace state

/-- Where a slot returned by the pass over the existing slots comes from: a
refreshed active slot, an incoming placeholder left as it is, or an incoming
placeholder activated for a pending destination. -/
theorem reuseSlots_mem (nodes : List consul.UpstreamNode) (old : List models.Server)
    (pending : List consul.UpstreamNode) (t : models.Server)
    (ht : t ∈ reuseSlots nodes old pending) :
    (∃ s ∈ old, isActive s = true ∧ t = refreshSlot nodes s) ∨
      (t ∈ old ∧ isActive t = false) ∨
      (∃ name, ∃ n ∈ pending, t = activate name n) := by
  induction old generalizing pending with
  | nil => simp [reuseSlots] at ht
  | cons s rest ih =>
    cases hact : isActive s with
    | true =>
      rw [reuseSlots_cons_active _ _ _ _ hact, List.mem_cons] at ht
      rcases ht with rfl | ht
      · exact Or.inl ⟨s, List.mem_cons_self _ _, hact, rfl⟩
      · rcases ih pending ht with ⟨s', hs', h1, h2⟩ | ⟨h1, h2⟩ | h3
        · exact Or.inl ⟨s', List.mem_cons_of_mem _ hs', h1, h2⟩
        · exact Or.inr (Or.inl ⟨List.mem_cons_of_mem _ h1, h2⟩)
        · exact Or.inr (Or.inr h3)
    | false =>
      cases pending with
      | nil =>
        rw [reuseSlots_cons_idle _ _ _ hact, List.mem_cons] at ht
        rcases ht with rfl | ht
        · exact Or.inr (Or.inl ⟨List.mem_cons_self _ _, hact⟩)
        · rcases ih [] ht with ⟨s', hs', h1, h2⟩ | ⟨h1, h2⟩ | h3
          · exact Or.inl ⟨s', List.mem_cons_of_mem _ hs', h1, h2⟩
          · exact Or.inr (Or.inl ⟨List.mem_cons_of_mem _ h1, h2⟩)
          · exact Or.inr (Or.inr h3)
      | cons n pending =>
        rw [reuseSlots_cons_assign _ _ _ _ _ hact, List.mem_cons] at ht
        rcases ht with rfl | ht
        · exact Or.inr (Or.inr ⟨s.Name, n, List.mem_cons_self _ _, rfl⟩)
        · rcases ih pending ht with ⟨s', hs', h1, h2⟩ | ⟨h1, h2⟩ | ⟨name, m, hm, h3⟩
          · exact Or.inl ⟨s', List.mem_cons_of_mem _ hs', h1, h2⟩
          · exact Or.inr (Or.inl ⟨List.mem_cons_of_mem _ h1, h2⟩)
          · exact Or.inr (Or.inr ⟨name, m, List.mem_cons_of_mem _ hm, h3⟩)

/-- Where an appended slot comes from: a destination left without a slot, or a
placeholder. -/
theorem growSlots_mem (capacity : Nat) (rest : List consul.UpstreamNode) (t : models.Server)
    (ht : t ∈ growSlots capacity rest) :
    (∃ name, ∃ n ∈ rest, t = activate name n) ∨ (∃ name, t = placeholder name) := by
  unfold growSlots at ht
  split at ht
  · simp at ht
  · rcases List.mem_append.1 ht with h | h
    · obtain ⟨p, hp, rfl⟩ := List.mem_map.1 h
      exact Or.inl ⟨_, p.2, List.snd_mem_of_mem_enum hp, rfl⟩
    · obtain ⟨j, -, rfl⟩ := List.mem_map.1 h
      exact Or.inr ⟨_, rfl⟩

/-- A refreshed slot that is active carries a desired destination and its
weight. -/
theorem refreshSlot_kept (nodes : List consul.UpstreamNode) (s : models.Server)
    (hact : isActive (refreshSlot nodes s) = true) :
    ∃ n ∈ nodes, nodeKey n = slotKey (refreshSlot nodes s) ∧
      (refreshSlot nodes s).Weight = some n.Weight := by
  unfold refreshSlot at hact ⊢
  cases hfind : nodes.find? (fun n => decide (nodeKey n = slotKey s)) with
  | none =>
    rw [hfind] at hact
    simp [isActive, isPlaceholder, placeholder] at hact
  | some n =>
    have hkey := List.find?_some hfind
    simp only [decide_eq_true_eq] at hkey
    exact ⟨n, List.mem_of_find?_eq_some hfind, hkey, rfl⟩

/-- The unmet destinations are desired destinations. -/
theorem mem_of_mem_unmet (old : List models.Server) (nodes : List consul.UpstreamNode)
    (n : consul.UpstreamNode) (hn : n ∈ unmet old nodes) : n ∈ nodes :=
  List.mem_of_mem_filter hn

/-- Every active slot the pool returns carries a desired destination and its
weight. -/
theorem slotPool_kept (ca crt : String) (old : List models.Server)
    (nodes : List consul.UpstreamNode) (t : models.Server)
    (ht : t ∈ slotPool ca crt old nodes) (hact : isActive t = true) :
    ∃ n ∈ nodes, nodeKey n = slotKey t ∧ t.Weight = some n.Weight := by
  unfold slotPool at ht
  obtain ⟨t0, ht0, rfl⟩ := List.mem_map.1 ht
  rw [isActive_stamp] at hact
  rcases List.mem_append.1 ht0 with h | h
  · rcases reuseSlots_mem nodes old _ t0 h with ⟨s, -, -, rfl⟩ | ⟨-, hidle⟩ | ⟨name, n, hn, rfl⟩
    · exact refreshSlot_kept nodes s hact
    · rw [hidle] at hact
      exact absurd hact (by decide)
    · exact ⟨n, mem_of_mem_unmet old nodes n hn, rfl, rfl⟩
  · rcases growSlots_mem _ _ t0 h with ⟨name, n, hn, rfl⟩ | ⟨name, rfl⟩
    · exact ⟨n, mem_of_mem_unmet old nodes n (List.mem_of_mem_drop hn), rfl, rfl⟩
    · simp [isActive, isPlaceholder, placeholder] at hact

/-- Every slot the pool returns is left as it is by stamping again. -/
theorem slotPool_stamp_fixed (ca crt : String) (old : List models.Server)
    (nodes : List consul.UpstreamNode) (t : models.Server)
    (ht : t ∈ slotPool ca crt old nodes) : stamp ca crt t = t := by
  unfold slotPool at ht
  obtain ⟨t0, -, rfl⟩ := List.mem_map.1 ht
  rfl

/-- Every pending destination is given an incoming placeholder or left for
growth. -/
theorem reuseSlots_assigns (nodes : List consul.UpstreamNode) (old : List models.Server)
    (pending : List consul.UpstreamNode) (n : consul.UpstreamNode) (hn : n ∈ pending) :
    (∃ name, activate name n ∈ reuseSlots nodes old pending) ∨
      n ∈ leftover old pending := by
  induction old generalizing pending with
  | nil => exact Or.inr (by simpa [leftover] using hn)
  | cons s rest ih =>
    cases hact : isActive s with
    | true =>
      have hph : isPlaceholder s = false := by simpa [isActive] using hact
      rw [reuseSlots_cons_active _ _ _ _ hact]
      rcases ih pending hn with ⟨name, h⟩ | h
      · exact Or.inl ⟨name, List.mem_cons_of_mem _ h⟩
      · right
        simpa [leftover, List.countP_cons, hph] using h
    | false =>
      have hph : isPlaceholder s = true := by simpa [isActive] using hact
      cases pending with
      | nil => simp at hn
      | cons m pending =>
        rw [reuseSlots_cons_assign _ _ _ _ _ hact]
        rcases List.mem_cons.1 hn with rfl | hn'
        · exact Or.inl ⟨s.Name, List.mem_cons_self _ _⟩
        · rcases ih pending hn' with ⟨name, h⟩ | h
          · exact Or.inl ⟨name, List.mem_cons_of_mem _ h⟩
          · right
            simpa [leftover, List.countP_cons, hph] using h

/-- Every destination left for growth gets an appended slot. -/
theorem growSlots_assigns (capacity : Nat) (rest : List consul.UpstreamNode)
    (n : consul.UpstreamNode) (hn : n ∈ rest) :
    ∃ name, activate name n ∈ growSlots capacity rest := by
  have hne : rest ≠ [] := by
    intro h
    rw [h] at hn
    simp at hn
  obtain ⟨i, hi, hget⟩ := List.getElem_of_mem hn
  refine ⟨slotName (capacity + i), ?_⟩
  rw [growSlots_of_ne_nil _ _ hne]
  apply List.mem_append_left
  apply List.mem_map.2
  refine ⟨(i, n), ?_, rfl⟩
  rw [List.mk_mem_enum_iff_getElem?, List.getElem?_eq_getElem hi, hget]

/-- Every desired destination has a slot among those the pool returns. -/
theorem slotPool_covers (ca crt : String) (old : List models.Server)
    (nodes : List consul.UpstreamNode) (n : consul.UpstreamNode) (hn : n ∈ nodes) :
    ∃ t ∈ slotPool ca crt old nodes, slotKey t = nodeKey n := by
  by_cases hm : matched old n = true
  · simp only [matched, List.any_eq_true, Bool.and_eq_true, decide_eq_true_eq] at hm
    obtain ⟨s, hs, hact, hkey⟩ := hm
    obtain ⟨i, hi, hget⟩ := List.getElem_of_mem hs
    have hsome : old[i]? = some s := by rw [List.getElem?_eq_getElem hi, hget]
    have hat := slotPool_active ca crt old nodes i s hsome hact
    refine ⟨stamp ca crt (refreshSlot nodes s), List.getElem?_mem hat, ?_⟩
    rw [slotKey_stamp]
    unfold refreshSlot
    cases hfind : nodes.find? (fun m => decide (nodeKey m = slotKey s)) with
    | none =>
      rw [List.find?_eq_none] at hfind
      have := hfind n hn
      simp [hkey] at this
    | some m => exact hkey
  · have hpending : n ∈ unmet old nodes := by
      simp only [unmet, List.mem_filter]
      exact ⟨hn, by simpa using hm⟩
    unfold slotPool
    rcases reuseSlots_assigns nodes old _ n hpending with ⟨name, h⟩ | h
    · exact ⟨stamp ca crt (activate name n),
        List.mem_map.2 ⟨_, List.mem_append_left _ h, rfl⟩, rfl⟩
    · obtain ⟨name, h'⟩ := growSlots_assigns old.length _ n h
      exact ⟨stamp ca crt (activate name n),
        List.mem_map.2 ⟨_, List.mem_append_right _ h', rfl⟩, rfl⟩

/-- A slot in state `disabled` is active. -/
theorem isActive_of_disabled (s : models.Server)
    (h : s.Maintenance = models.Maintenance.disabled) : isActive s = true := by
  simp [isActive, isPlaceholder, h]

/-- In a list without two nodes of one (host, port), nodes of one (host, port)
are equal. -/
theorem node_eq_of_key_eq (nodes : List consul.UpstreamNode)
    (hset : (nodes.map nodeKey).Nodup) (a b : consul.UpstreamNode) (ha : a ∈ nodes)
    (hb : b ∈ nodes) (hkey : nodeKey a = nodeKey b) : a = b :=
  List.inj_on_of_nodup_map hset ha hb hkey

/-- Removing a desired node from the list a settled pool was generated for
vacates the slot of that node and leaves the others as they are. -/
theorem slotPool_remove (ca crt : String) (sl : List models.Server)
    (l1 l2 : List consul.UpstreamNode) (x : consul.UpstreamNode)
    (ha : ∀ s ∈ sl, s.Maintenance = models.Maintenance.disabled)
    (hset : ((l1 ++ x :: l2).map nodeKey).Nodup)
    (hc : ∀ s ∈ sl, ∃ n ∈ l1 ++ x :: l2, nodeKey n = slotKey s ∧ s.Weight = some n.Weight)
    (hd : ∀ s ∈ sl, stamp ca crt s = s)
    (he : ∀ n ∈ l1 ++ x :: l2, ∃ s ∈ sl, slotKey s = nodeKey n) :
    slotPool ca crt sl (l1 ++ l2) = vacate ca crt (nodeKey x) sl := by
  have hactive : ∀ s ∈ sl, isActive s = true := fun s hs => isActive_of_disabled s (ha s hs)
  have hsub : ∀ n ∈ l1 ++ l2, n ∈ l1 ++ x :: l2 := by
    intro n hn
    rcases List.mem_append.1 hn with h | h
    · exact List.mem_append_left _ h
    · exact List.mem_append_right _ (List.mem_cons_of_mem _ h)
  have hset' := hset
  rw [List.map_append, List.map_cons, List.nodup_middle, List.nodup_cons,
    ← List.map_append] at hset'
  have hunmet : unmet sl (l1 ++ l2) = [] :=
    unmet_eq_nil sl _ (fun n hn => by
      obtain ⟨s, hs, hkey⟩ := he n (hsub n hn)
      exact ⟨s, hs, hactive s hs, hkey⟩)
  unfold slotPool vacate
  rw [hunmet, reuseSlots_of_all_active _ sl _ hactive]
  simp only [leftover, growSlots, List.drop_nil, if_true, List.append_nil, List.map_map]
  apply List.map_congr_left
  intro s hs
  simp only [Function.comp_def]
  by_cases hk : slotKey s = nodeKey x
  · rw [if_pos hk]
    have hnone : (l1 ++ l2).find? (fun n => decide (nodeKey n = slotKey s)) = none := by
      rw [List.find?_eq_none]
      intro n hn
      simp only [decide_eq_true_eq]
      intro hkn
      apply hset'.1
      rw [← hk, ← hkn]
      exact List.mem_map_of_mem nodeKey hn
    simp only [refreshSlot, hnone]
  · rw [if_neg hk]
    obtain ⟨n, hn, hkey, hw⟩ := hc s hs
    have hnx : n ≠ x := by
      intro h
      rw [h] at hkey
      exact hk hkey.symm
    have hn' : n ∈ l1 ++ l2 := by
      rcases List.mem_append.1 hn with h | h
      · exact List.mem_append_left _ h
      · rcases List.mem_cons.1 h with h | h
        · exact absurd h hnx
        · exact List.mem_append_right _ h
    rw [refreshSlot_of_kept (l1 ++ l2) s hset'.2 ⟨n, hn', hkey, hw⟩]
    exact hd s hs

/-- The pass over a pool one slot of which has been vacated, with the removed
node pending, puts the node back into its slot. -/
theorem reuseSlots_vacate (ca crt : String) (nodes : List consul.UpstreamNode)
    (x : consul.UpstreamNode) (sl : List models.Server)
    (hb : (sl.map slotKey).Nodup)
    (hact : ∀ s ∈ sl, isActive s = true)
    (hfix : ∀ s ∈ sl, slotKey s ≠ nodeKey x → refreshSlot nodes s = s)
    (hx : ∀ s ∈ sl, slotKey s = nodeKey x → stamp ca crt (activate s.Name x) = s)
    (hd : ∀ s ∈ sl, stamp ca crt s = s) :
    (nodeKey x ∈ sl.map slotKey →
      (reuseSlots nodes (vacate ca crt (nodeKey x) sl) [x]).map (stamp ca crt) = sl) ∧
    (nodeKey x ∉ sl.map slotKey →
      (reuseSlots nodes (vacate ca crt (nodeKey x) sl) []).map (stamp ca crt) = sl) := by
  induction sl with
  | nil =>
    constructor
    · intro h; simp at h
    · intro _; rfl
  | cons s rest ih =>
    rw [List.map_cons, List.nodup_cons] at hb
    have ihr := ih hb.2 (fun t ht => hact t (List.mem_cons_of_mem _ ht))
      (fun t ht => hfix t (List.mem_cons_of_mem _ ht))
      (fun t ht => hx t (List.mem_cons_of_mem _ ht))
      (fun t ht => hd t (List.mem_cons_of_mem _ ht))
    have hs := List.mem_cons_self s rest
    constructor
    · intro hmem
      by_cases hk : slotKey s = nodeKey x
      · have hnot : nodeKey x ∉ rest.map slotKey := by
          rw [← hk]
          exact hb.1
        have hv : vacate ca crt (nodeKey x) (s :: rest) =
            stamp ca crt (placeholder s.Name) :: vacate ca crt (nodeKey x) rest := by
          simp [vacate, hk]
        rw [hv, reuseSlots_cons_assign _ _ _ _ _ (by rfl), List.map_cons, ihr.2 hnot]
        congr 1
        exact hx s hs hk
      · have hmem' : nodeKey x ∈ rest.map slotKey := by
          rw [List.map_cons, List.mem_cons] at hmem
          rcases hmem with h | h
          · exact absurd h.symm hk
          · exact h
        have hv : vacate ca crt (nodeKey x) (s :: rest) =
            s :: vacate ca crt (nodeKey x) rest := by
          simp [vacate, hk]
        rw [hv, reuseSlots_cons_active _ _ _ _ (hact s hs), List.map_cons, ihr.1 hmem',
          hfix s hs hk, hd s hs]
    · intro hnot
      rw [List.map_cons, List.mem_cons, not_or] at hnot
      have hk : slotKey s ≠ nodeKey x := fun h => hnot.1 h.symm
      have hv : vacate ca crt (nodeKey x) (s :: rest) =
          s :: vacate ca crt (nodeKey x) rest := by
        simp [vacate, hk]
      rw [hv, reuseSlots_cons_active _ _ _ _ (hact s hs), List.map_cons, ihr.2 hnot.2,
        hfix s hs hk, hd s hs]

/-- Re-adding the removed node to a pool whose slot for it has been vacated
restores the pool. -/
theorem slotPool_readd (ca crt : String) (sl : List models.Server)
    (l1 l2 : List consul.UpstreamNode) (x : consul.UpstreamNode)
    (ha : ∀ s ∈ sl, s.Maintenance = models.Maintenance.disabled)
    (hb : (sl.map slotKey).Nodup)
    (hset : ((l1 ++ x :: l2).map nodeKey).Nodup)
    (hc : ∀ s ∈ sl, ∃ n ∈ l1 ++ x :: l2, nodeKey n = slotKey s ∧ s.Weight = some n.Weight)
    (hd : ∀ s ∈ sl, stamp ca crt s = s)
    (he : ∀ n ∈ l1 ++ x :: l2, ∃ s ∈ sl, slotKey s = nodeKey n) :
    slotPool ca crt (vacate ca crt (nodeKey x) sl) (l1 ++ x :: l2) = sl := by
  have hactive : ∀ s ∈ sl, isActive s = true := fun s hs => isActive_of_disabled s (ha s hs)
  have hxmem : x ∈ l1 ++ x :: l2 := List.mem_append_right _ (List.mem_cons_self _ _)
  have hset' := hset
  rw [List.map_append, List.map_cons, List.nodup_middle, List.nodup_cons,
    List.mem_append, not_or] at hset'
  -- which desired nodes are matched by an active slot of the vacated pool
  have hmatched : ∀ n ∈ l1 ++ x :: l2,
      (matched (vacate ca crt (nodeKey x) sl) n = true ↔ nodeKey n ≠ nodeKey x) := by
    intro n hn
    simp only [matched, vacate, List.any_eq_true, Bool.and_eq_true, decide_eq_true_eq,
      List.mem_map]
    constructor
    · rintro ⟨t, ⟨s, hs, rfl⟩, hact, hkey⟩
      by_cases hk : slotKey s = nodeKey x
      · rw [if_pos hk] at hact
        simp [isActive, isPlaceholder, stamp, placeholder] at hact
      · rw [if_neg hk] at hkey
        rw [← hkey]
        exact hk
    · intro hne
      obtain ⟨s, hs, hkey⟩ := he n hn
      have hk : slotKey s ≠ nodeKey x := by rw [hkey]; exact hne
      exact ⟨s, ⟨s, hs, by rw [if_neg hk]⟩, hactive s hs, hkey⟩
  have hunmet : unmet (vacate ca crt (nodeKey x) sl) (l1 ++ x :: l2) = [x] := by
    have h1 : l1.filter (fun n => !matched (vacate ca crt (nodeKey x) sl) n) = [] := by
      rw [List.filter_eq_nil_iff]
      intro n hn
      have hne : nodeKey n ≠ nodeKey x := by
        intro h
        apply hset'.1.1
        rw [← h]
        exact List.mem_map_of_mem nodeKey hn
      simp [(hmatched n (List.mem_append_left _ hn)).2 hne]
    have h2 : l2.filter (fun n => !matched (vacate ca crt (nodeKey x) sl) n) = [] := by
      rw [List.filter_eq_nil_iff]
      intro n hn
      have hne : nodeKey n ≠ nodeKey x := by
        intro h
        apply hset'.1.2
        rw [← h]
        exact List.mem_map_of_mem nodeKey hn
      simp [(hmatched n (List.mem_append_right _ (List.mem_cons_of_mem _ hn))).2 hne]
    have hxm : matched (vacate ca crt (nodeKey x) sl) x = false := by
      cases hm : matched (vacate ca crt (nodeKey x) sl) x with
      | false => rfl
      | true => exact absurd rfl ((hmatched x hxmem).1 hm)
    simp [unmet, List.filter_append, List.filter_cons, h1, h2, hxm]
  obtain ⟨sx, hsx, hkx⟩ := he x hxmem
  have hcount : 1 ≤ (vacate ca crt (nodeKey x) sl).countP isPlaceholder := by
    apply List.countP_pos_iff.2
    refine ⟨stamp ca crt (placeholder sx.Name), ?_, rfl⟩
    simp only [vacate, List.mem_map]
    exact ⟨sx, hsx, by rw [if_pos hkx]⟩
  have hleft : leftover (vacate ca crt (nodeKey x) sl) [x] = [] := by
    unfold leftover
    apply List.drop_eq_nil_of_le
    simpa using hcount
  have hfix : ∀ s ∈ sl, slotKey s ≠ nodeKey x → refreshSlot (l1 ++ x :: l2) s = s :=
    fun s hs _ => refreshSlot_of_kept _ s hset (hc s hs)
  have hx : ∀ s ∈ sl, slotKey s = nodeKey x → stamp ca crt (activate s.Name x) = s := by
    intro s hs hk
    obtain ⟨n, hn, hkey, hw⟩ := hc s hs
    have hnx : n = x := node_eq_of_key_eq _ hset n x hn hxmem (hkey.trans hk)
    subst hnx
    have hm := ha s hs
    have hst := hd s hs
    rw [← hst]
    cases s
    simp only [slotKey, nodeKey, Prod.mk.injEq] at hk
    simp only at hw hm
    simp [stamp, activate, hk.1, hk.2, hw, hm]
  have hin : nodeKey x ∈ sl.map slotKey := by
    rw [← hkx]
    exact List.mem_map_of_mem slotKey hsx
  unfold slotPool
  rw [hunmet, hleft]
  have hgrow : growSlots (vacate ca crt (nodeKey x) sl).length [] = [] := by
    simp [growSlots]
  rw [hgrow, List.append_nil]
  exact (reuseSlots_vacate ca crt (l1 ++ x :: l2) x sl hb hactive hfix hx hd).1 hin

/-- Removing a desired node and adding it again restores a settled pool. -/
theorem slotPool_round_trip (ca crt : String) (sl : List models.Server)
    (l1 l2 : List consul.UpstreamNode) (x : consul.UpstreamNode)
    (ha : ∀ s ∈ sl, s.Maintenance = models.Maintenance.disabled)
    (hb : (sl.map slotKey).Nodup)
    (hset : ((l1 ++ x :: l2).map nodeKey).Nodup)
    (hc : ∀ s ∈ sl, ∃ n ∈ l1 ++ x :: l2, nodeKey n = slotKey s ∧ s.Weight = some n.Weight)
    (hd : ∀ s ∈ sl, stamp ca crt s = s)
    (he : ∀ n ∈ l1 ++ x :: l2, ∃ s ∈ sl, slotKey s = nodeKey n) :
    slotPool ca crt (slotPool ca crt sl (l1 ++ l2)) (l1 ++ x :: l2) = sl := by
  rw [slotPool_remove ca crt sl l1 l2 x ha hset hc hd he]
  exact slotPool_readd ca crt sl l1 l2 x ha hb hset hc hd he

/-- Generating twice for one desired list leaves a settled pool as it is. -/
theorem slotPool_idem (ca crt : String) (sl : List models.Server)
    (nodes : List consul.UpstreamNode)
    (ha : ∀ s ∈ sl, s.Maintenance = models.Maintenance.disabled)
    (hset : (nodes.map nodeKey).Nodup)
    (hc : ∀ s ∈ sl, ∃ n ∈ nodes, nodeKey n = slotKey s ∧ s.Weight = some n.Weight)
    (hd : ∀ s ∈ sl, stamp ca crt s = s)
    (he : ∀ n ∈ nodes, ∃ s ∈ sl, slotKey s = nodeKey n) :
    slotPool ca crt sl nodes = sl := by
  rw [slotPool_settled ca crt sl nodes (fun s hs => isActive_of_disabled s (ha s hs)) hset hc he]
  conv_rhs => rw [← List.map_id sl]
  apply List.map_congr_left
  intro s hs
  exact hd s hs

/-- The second part of `TestServerUpdate` (`snapshot_test.go`, lines 243-257):
removing the first node and adding it again gives the fixture back. -/
theorem TestServerUpdate_readd :
    Generate sampleConstants TestOpts TestCertStore
        (withServers (GetTestHAConfig sampleConstants "/" "") 1
          [testPlaceholder "srv_0" "", testSlot "srv_1" nodeB ""])
        (GetTestConsulConfig sampleConstants) =
      Except.ok (GetTestHAConfig sampleConstants "/" "") := by
  decide

/-- The round trip on settled pools: let `S` be what `Generate` returns for a
policy `P` (no two nodes of one (host, port) in an upstream) from some
snapshot `S0`, with every slot of every upstream's backend in state `disabled`
and no two slots of one backend at the same (address, port).  Let `P'` be `P`
with one node `x` removed from one upstream `u`.  Then `Generate` from `S` for
`P'` succeeds, and `Generate` from its result for `P` returns `S` again. -/
theorem Generate_remove_readd_of_settled (k : Constants) (opts : Options)
    (certStore : CertificateStore) (S0 S : State) (P : consul.Config)
    (pre post : List consul.Upstream) (u : consul.Upstream)
    (before after : List consul.UpstreamNode) (x : consul.UpstreamNode)
    (hgen : Generate k opts certStore S0 P = Except.ok S)
    (hset : ∀ v ∈ P.Upstreams, (v.Nodes.map nodeKey).Nodup)
    (hactive : ∀ v ∈ P.Upstreams, ∀ s ∈ backendSlots S (backendName v.Name),
      s.Maintenance = models.Maintenance.disabled)
    (hdistinct : ∀ v ∈ P.Upstreams,
      ((backendSlots S (backendName v.Name)).map slotKey).Nodup)
    (hups : P.Upstreams = pre ++ u :: post)
    (hnodes : u.Nodes = before ++ x :: after) :
    ∃ S1,
      Generate k opts certStore S
          { P with Upstreams := pre ++ { u with Nodes := before ++ after } :: post } =
        Except.ok S1 ∧
      Generate k opts certStore S1 P = Except.ok S := by
  obtain ⟨hn, hd, hcert, hS⟩ := (Generate_eq_ok_iff k opts certStore S0 P S).1 hgen
  -- the policy with the node removed names the same pairs and asks for the same paths
  have hn' : (pairNames
      { P with Upstreams := pre ++ { u with Nodes := before ++ after } :: post }).Nodup := by
    have : pairNames
        { P with Upstreams := pre ++ { u with Nodes := before ++ after } :: post } =
        pairNames P := by
      simp [pairNames, hups]
    rw [this]
    exact hn
  have hcert' : ∀ v ∈ pre ++ { u with Nodes := before ++ after } :: post,
      ∃ p, certStore v.TLS = Except.ok p := by
    intro v hv
    rcases List.mem_append.1 hv with h | h
    · exact hcert v (by rw [hups]; exact List.mem_append_left _ h)
    · rcases List.mem_cons.1 h with rfl | h
      · exact hcert u (by rw [hups]; exact List.mem_append_right _ (List.mem_cons_self _ _))
      · exact hcert v (by rw [hups]; exact List.mem_append_right _ (List.mem_cons_of_mem _ h))
  have hgen1 := (Generate_eq_ok_iff k opts certStore S
      { P with Upstreams := pre ++ { u with Nodes := before ++ after } :: post } _).2
    ⟨hn', hd, hcert', rfl⟩
  refine ⟨_, hgen1, ?_⟩
  rw [Generate_eq_ok_iff]
  refine ⟨hn, hd, hcert, ?_⟩
  -- the slots of `S` are settled for the desired lists of `P`
  have hsl : ∀ v ∈ P.Upstreams,
      backendSlots S (backendName v.Name) =
        slotPool (pathsOf certStore v.TLS).1 (pathsOf certStore v.TLS).2
          (backendSlots S0 (backendName v.Name)) v.Nodes := by
    intro v hv
    rw [hS]
    exact backendSlots_assemble k opts certStore S0 P hn v hv
  have hc : ∀ v ∈ P.Upstreams, ∀ s ∈ backendSlots S (backendName v.Name),
      ∃ n ∈ v.Nodes, nodeKey n = slotKey s ∧ s.Weight = some n.Weight := by
    intro v hv s hs
    have hact := isActive_of_disabled s (hactive v hv s hs)
    rw [hsl v hv] at hs
    exact slotPool_kept _ _ _ _ s hs hact
  have hdd : ∀ v ∈ P.Upstreams, ∀ s ∈ backendSlots S (backendName v.Name),
      stamp (pathsOf certStore v.TLS).1 (pathsOf certStore v.TLS).2 s = s := by
    intro v hv s hs
    rw [hsl v hv] at hs
    exact slotPool_stamp_fixed _ _ _ _ s hs
  have he : ∀ v ∈ P.Upstreams, ∀ n ∈ v.Nodes,
      ∃ s ∈ backendSlots S (backendName v.Name), slotKey s = nodeKey n := by
    intro v hv n hn
    rw [hsl v hv]
    exact slotPool_covers _ _ _ _ n hn
  -- upstream by upstream, the slots come back
  conv_lhs => rw [hS]
  symm
  apply assemble_congr
  intro v hv
  rw [← hsl v hv]
  have hidem : slotPool (pathsOf certStore v.TLS).1 (pathsOf certStore v.TLS).2
      (slotPool (pathsOf certStore v.TLS).1 (pathsOf certStore v.TLS).2
        (backendSlots S (backendName v.Name)) v.Nodes) v.Nodes =
      backendSlots S (backendName v.Name) := by
    rw [slotPool_idem _ _ _ v.Nodes (hactive v hv) (hset v hv) (hc v hv) (hdd v hv) (he v hv)]
    exact slotPool_idem _ _ _ v.Nodes (hactive v hv) (hset v hv) (hc v hv) (hdd v hv)
      (he v hv)
  have hv' := hv
  rw [hups] at hv'
  rcases List.mem_append.1 hv' with h | h
  · rw [backendSlots_assemble k opts certStore S _ hn' v (List.mem_append_left _ h)]
    exact hidem
  · rcases List.mem_cons.1 h with rfl | h
    · have hmem : ({ v with Nodes := before ++ after } : consul.Upstream) ∈
          pre ++ { v with Nodes := before ++ after } :: post :=
        List.mem_append_right _ (List.mem_cons_self _ _)
      have hprev := backendSlots_assemble k opts certStore S
        { P with Upstreams := pre ++ { v with Nodes := before ++ after } :: post } hn'
        { v with Nodes := before ++ after } hmem
      simp only at hprev
      rw [hprev]
      have hsetv := hset v hv
      have hcv := hc v hv
      have hev := he v hv
      rw [hnodes] at hsetv hcv hev ⊢
      exact slotPool_round_trip _ _ _ before after x (hactive v hv) (hdistinct v hv) hsetv
        hcv (hdd v hv) hev
    · rw [backendSlots_assemble k opts certStore S _ hn' v
        (List.mem_append_right _ (List.mem_cons_of_mem _ h))]
      exact hidem

end state

/-! ### Well-formed pools: what every snapshot reached from the empty one satisfies -/

namespace state

/-- The active keys of a list that starts with an active slot. -/
theorem activeKeys_cons_active (s : models.Server) (rest : List models.Server)
    (h : isActive s = true) : activeKeys (s :: rest) = slotKey s :: activeKeys rest := by
  simp [activeKeys, List.filter_cons, h]

/-- The active keys of a list that starts with a placeholder. -/
theorem activeKeys_cons_idle (s : models.Server) (rest : List models.Server)
    (h : isActive s = false) : activeKeys (s :: rest) = activeKeys rest := by
  simp [activeKeys, List.filter_cons, h]

/-- The active keys of two lists one after the other. -/
theorem activeKeys_append (l1 l2 : List models.Server) :
    activeKeys (l1 ++ l2) = activeKeys l1 ++ activeKeys l2 := by
  simp [activeKeys, List.filter_append]

/-- Stamping does not change the active keys. -/
theorem activeKeys_map_stamp (ca crt : String) (l : List models.Server) :
    activeKeys (l.map (stamp ca crt)) = activeKeys l := by
  induction l with
  | nil => rfl
  | cons s rest ih =>
    cases h : isActive s with
    | true =>
      rw [List.map_cons, activeKeys_cons_active _ _ (by rw [isActive_stamp]; exact h),
        activeKeys_cons_active _ _ h, ih, slotKey_stamp]
    | false =>
      rw [List.map_cons, activeKeys_cons_idle _ _ (by rw [isActive_stamp]; exact h),
        activeKeys_cons_idle _ _ h, ih]

/-- A refreshed slot is either active with the key it had, or a placeholder. -/
theorem refreshSlot_active_or_idle (nodes : List consul.UpstreamNode) (s : models.Server)
    (hs : isActive s = true) :
    (isActive (refreshSlot nodes s) = true ∧ slotKey (refreshSlot nodes s) = slotKey s) ∨
      isActive (refreshSlot nodes s) = false := by
  unfold refreshSlot
  split
  · exact Or.inl ⟨hs, rfl⟩
  · exact Or.inr rfl

/-- The active slots after the pass over the existing slots are at distinct
(address, port) pairs, each the pair of an active existing slot or of a pending
destination that was given a placeholder. -/
theorem reuseSlots_activeKeys (nodes : List consul.UpstreamNode) (old : List models.Server)
    (pending : List consul.UpstreamNode)
    (hold : (activeKeys old).Nodup) (hpend : (pending.map nodeKey).Nodup)
    (hdisj : ∀ n ∈ pending, nodeKey n ∉ activeKeys old) :
    (activeKeys (reuseSlots nodes old pending)).Nodup ∧
      ∀ key ∈ activeKeys (reuseSlots nodes old pending),
        key ∈ activeKeys old ∨
          key ∈ (pending.take (old.countP isPlaceholder)).map nodeKey := by
  induction old generalizing pending with
  | nil => exact ⟨List.nodup_nil, fun key hkey => by simp [reuseSlots, activeKeys] at hkey⟩
  | cons s rest ih =>
    cases hact : isActive s with
    | true =>
      have hph : isPlaceholder s = false := by simpa [isActive] using hact
      rw [activeKeys_cons_active _ _ hact, List.nodup_cons] at hold
      have hdisj' : ∀ n ∈ pending, nodeKey n ∉ activeKeys rest := by
        intro n hn hmem
        apply hdisj n hn
        rw [activeKeys_cons_active _ _ hact]
        exact List.mem_cons_of_mem _ hmem
      obtain ⟨ih1, ih2⟩ := ih pending hold.2 hpend hdisj'
      rw [reuseSlots_cons_active _ _ _ _ hact]
      have hcount : (s :: rest).countP isPlaceholder = rest.countP isPlaceholder := by
        simp [List.countP_cons, hph]
      rw [hcount, activeKeys_cons_active s rest hact]
      rcases refreshSlot_active_or_idle nodes s hact with ⟨hra, hrk⟩ | hri
      · rw [activeKeys_cons_active _ _ hra, hrk]
        constructor
        · rw [List.nodup_cons]
          refine ⟨?_, ih1⟩
          intro hmem
          rcases ih2 _ hmem with h | h
          · exact hold.1 h
          · obtain ⟨n, hn, hkey⟩ := List.mem_map.1 h
            apply hdisj n (List.mem_of_mem_take hn)
            rw [activeKeys_cons_active _ _ hact, hkey]
            exact List.mem_cons_self _ _
        · intro key hkey
          rcases List.mem_cons.1 hkey with rfl | hkey
          · exact Or.inl (List.mem_cons_self _ _)
          · rcases ih2 key hkey with h | h
            · exact Or.inl (List.mem_cons_of_mem _ h)
            · exact Or.inr h
      · rw [activeKeys_cons_idle _ _ hri]
        refine ⟨ih1, ?_⟩
        intro key hkey
        rcases ih2 key hkey with h | h
        · exact Or.inl (List.mem_cons_of_mem _ h)
        · exact Or.inr h
    | false =>
      have hph : isPlaceholder s = true := by simpa [isActive] using hact
      rw [activeKeys_cons_idle _ _ hact] at hold hdisj ⊢
      have hcount : (s :: rest).countP isPlaceholder = rest.countP isPlaceholder + 1 := by
        simp [List.countP_cons, hph]
      rw [hcount]
      cases pending with
      | nil =>
        rw [reuseSlots_cons_idle _ _ _ hact, activeKeys_cons_idle _ _ hact]
        obtain ⟨ih1, ih2⟩ := ih [] hold hpend hdisj
        exact ⟨ih1, fun key hkey => by
          rcases ih2 key hkey with h | h
          · exact Or.inl h
          · simp at h⟩
      | cons n pending =>
        rw [List.map_cons, List.nodup_cons] at hpend
        have hdisj' : ∀ m ∈ pending, nodeKey m ∉ activeKeys rest :=
          fun m hm => hdisj m (List.mem_cons_of_mem _ hm)
        obtain ⟨ih1, ih2⟩ := ih pending hold hpend.2 hdisj'
        rw [reuseSlots_cons_assign _ _ _ _ _ hact,
          activeKeys_cons_active (activate s.Name n) _ rfl]
        have hk : slotKey (activate s.Name n) = nodeKey n := rfl
        rw [hk]
        constructor
        · rw [List.nodup_cons]
          refine ⟨?_, ih1⟩
          intro hmem
          rcases ih2 _ hmem with h | h
          · exact hdisj n (List.mem_cons_self _ _) h
          · exact hpend.1 (List.mem_map.2 (by
              obtain ⟨m, hm, hkey⟩ := List.mem_map.1 h
              exact ⟨m, List.mem_of_mem_take hm, hkey⟩))
        · intro key hkey
          rcases List.mem_cons.1 hkey with rfl | hkey
          · exact Or.inr (by simp)
          · rcases ih2 key hkey with h | h
            · exact Or.inl h
            · right
              rw [List.take_succ_cons, List.map_cons]
              exact List.mem_cons_of_mem _ h

/-- The active appended slots are at the (host, port) pairs of the destinations
left for growth. -/
theorem activeKeys_growSlots (capacity : Nat) (rest : List consul.UpstreamNode) :
    activeKeys (growSlots capacity rest) = rest.map nodeKey := by
  by_cases hne : rest = []
  · subst hne
    simp [growSlots, activeKeys]
  · rw [growSlots_of_ne_nil _ _ hne, activeKeys_append]
    have h1 : ∀ (l : List (Nat × consul.UpstreamNode)),
        activeKeys (l.map (fun p => activate (slotName (capacity + p.1)) p.2)) =
          (l.map Prod.snd).map nodeKey := by
      intro l
      induction l with
      | nil => rfl
      | cons p l ih =>
        rw [List.map_cons,
          activeKeys_cons_active (activate (slotName (capacity + p.1)) p.2) _ rfl, ih]
        rfl
    have h2 : ∀ (l : List Nat),
        activeKeys (l.map
          (fun j => placeholder (slotName (capacity + rest.length + j)))) = [] := by
      intro l
      induction l with
      | nil => rfl
      | cons j l ih =>
        rw [List.map_cons,
          activeKeys_cons_idle (placeholder (slotName (capacity + rest.length + j))) _ rfl, ih]
    rw [h1, h2, List.enum_map_snd, List.append_nil]

/-- The unmet destinations are at no active existing slot. -/
theorem unmet_not_active (old : List models.Server) (nodes : List consul.UpstreamNode)
    (n : consul.UpstreamNode) (hn : n ∈ unmet old nodes) : nodeKey n ∉ activeKeys old := by
  intro hmem
  simp only [unmet, List.mem_filter, Bool.not_eq_true', matched] at hn
  obtain ⟨s, hs, hkey⟩ := List.mem_map.1 hmem
  rw [List.mem_filter] at hs
  have : (old.any fun s => isActive s && decide (slotKey s = nodeKey n)) = true := by
    rw [List.any_eq_true]
    exact ⟨s, hs.1, by simp [hs.2, hkey]⟩
  rw [this] at hn
  exact absurd hn.2 (by decide)

/-- The slot pool keeps pools well formed, the desired list having no two
nodes of one (host, port). -/
theorem slotPool_wellFormed (ca crt : String) (old : List models.Server)
    (nodes : List consul.UpstreamNode) (hold : WellFormedSlots old)
    (hset : (nodes.map nodeKey).Nodup) :
    WellFormedSlots (slotPool ca crt old nodes) := by
  constructor
  · intro t ht
    unfold slotPool at ht
    obtain ⟨t0, ht0, rfl⟩ := List.mem_map.1 ht
    show t0.Maintenance ≠ models.Maintenance.unset
    rcases List.mem_append.1 ht0 with h | h
    · rcases reuseSlots_mem nodes old _ t0 h with ⟨s, hs, -, rfl⟩ | ⟨hmem, -⟩ |
        ⟨name, n, -, rfl⟩
      · unfold refreshSlot
        split
        · exact hold.1 s hs
        · simp [placeholder]
      · exact hold.1 t0 hmem
      · simp [activate]
    · rcases growSlots_mem _ _ t0 h with ⟨name, n, -, rfl⟩ | ⟨name, rfl⟩
      · simp [activate]
      · simp [placeholder]
  · have hpend : ((unmet old nodes).map nodeKey).Nodup :=
      hset.sublist ((List.filter_sublist _).map nodeKey)
    obtain ⟨h1, h2⟩ := reuseSlots_activeKeys nodes old (unmet old nodes) hold.2 hpend
      (unmet_not_active old nodes)
    have hsplit : (unmet old nodes).map nodeKey =
        ((unmet old nodes).take (old.countP isPlaceholder)).map nodeKey ++
          ((unmet old nodes).drop (old.countP isPlaceholder)).map nodeKey := by
      rw [← List.map_append, List.take_append_drop]
    rw [hsplit] at hpend
    unfold slotPool
    rw [activeKeys_map_stamp, activeKeys_append, activeKeys_growSlots]
    apply List.Nodup.append h1 (List.nodup_append.1 hpend).2.1
    intro key hk1 hk2
    rcases h2 key hk1 with h | h
    · obtain ⟨n, hn, rfl⟩ := List.mem_map.1 hk2
      exact unmet_not_active old nodes n (List.mem_of_mem_drop hn) h
    · exact (List.nodup_append.1 hpend).2.2 h hk2

/-- A backend that is not there has a well-formed pool: no slots. -/
theorem wellFormedSlots_nil : WellFormedSlots [] :=
  ⟨fun s hs => by simp at hs, List.nodup_nil⟩

/-- The generator `Generate` keeps the pools of the upstreams well formed: if the policy has
no two nodes of one (host, port) in an upstream and the pools of the previous
snapshot are well formed, so are those of the snapshot returned.  The empty
snapshot has no pools, so this holds of every snapshot reached from it. -/
theorem Generate_wellFormed (k : Constants) (opts : Options) (certStore : CertificateStore)
    (S0 S : State) (P : consul.Config)
    (hgen : Generate k opts certStore S0 P = Except.ok S)
    (hset : ∀ v ∈ P.Upstreams, (v.Nodes.map nodeKey).Nodup)
    (hwf : ∀ v ∈ P.Upstreams, WellFormedSlots (backendSlots S0 (backendName v.Name))) :
    ∀ v ∈ P.Upstreams, WellFormedSlots (backendSlots S (backendName v.Name)) := by
  obtain ⟨hn, -, -, rfl⟩ := (Generate_eq_ok_iff k opts certStore S0 P S).1 hgen
  intro v hv
  rw [backendSlots_assemble k opts certStore S0 P hn v hv]
  exact slotPool_wellFormed _ _ _ _ (hwf v hv) (hset v hv)

/-- In a well-formed pool whose slots are all active, every slot is in state
`disabled` and no two slots are at the same (address, port). -/
theorem settled_of_wellFormed (slots : List models.Server) (hwf : WellFormedSlots slots)
    (hactive : ∀ s ∈ slots, isActive s = true) :
    (∀ s ∈ slots, s.Maintenance = models.Maintenance.disabled) ∧
      (slots.map slotKey).Nodup := by
  constructor
  · intro s hs
    have h1 := hwf.1 s hs
    have h2 := hactive s hs
    simp only [isActive, isPlaceholder, Bool.not_eq_true', decide_eq_false_iff_not] at h2
    cases hm : s.Maintenance with
    | unset => exact absurd hm h1
    | enabled => exact absurd hm h2
    | disabled => rfl
  · have hfilter : slots.filter isActive = slots :=
      List.filter_eq_self.2 hactive
    have := hwf.2
    rwa [activeKeys, hfilter] at this

end state

namespace state

/-- A generated snapshot has no backend under the backend name of a name that
names no pair. -/
theorem backendSlots_assemble_of_not_mem (k : Constants) (opts : Options)
    (certStore : CertificateStore) (oldState : State) (cfg : consul.Config) (x : String)
    (hx : x ∉ pairNames cfg) :
    backendSlots (assemble k opts certStore oldState cfg) (backendName x) = [] := by
  have hnone : (assemble k opts certStore oldState cfg).Backends.find?
      (fun b => decide (b.Backend.Name = backendName x)) = none := by
    rw [List.find?_eq_none]
    intro b hb
    simp only [decide_eq_true_eq]
    intro hname
    have hb' : b ∈ (assembleUnsorted k opts certStore oldState cfg).Backends :=
      (List.perm_insertionSort _ _).mem_iff.1 hb
    have hmem : b.Backend.Name ∈
        (assembleUnsorted k opts certStore oldState cfg).Backends.map
          (fun b => b.Backend.Name) :=
      List.mem_map_of_mem (fun b : Backend => b.Backend.Name) hb'
    rw [assembleUnsorted_backend_names, hname, List.mem_append] at hmem
    rcases hmem with h | h
    · obtain ⟨y, hy, hxy⟩ := List.mem_map.1 h
      rw [backendName_injective hxy] at hy
      exact hx hy
    · split at h
      · rw [List.mem_singleton] at h
        exact backendName_ne_spoe x h
      · simp at h
  unfold backendSlots
  rw [hnone]

/-- In every snapshot the driver can hold, the pool of every upstream backend
name is well formed. -/
theorem Reachable_wellFormed (k : Constants) (S : State) (hreach : Reachable k S) :
    ∀ x : String, x ≠ "downstream" → WellFormedSlots (backendSlots S (backendName x)) := by
  induction hreach with
  | empty =>
    intro x _
    exact wellFormedSlots_nil
  | step opts certStore S0 S P _ hset hgen ih =>
    obtain ⟨hn, -, -, rfl⟩ := (Generate_eq_ok_iff k opts certStore S0 P S).1 hgen
    intro x hx
    by_cases hmem : x ∈ P.Upstreams.map (fun u => u.Name)
    · obtain ⟨v, hv, rfl⟩ := List.mem_map.1 hmem
      rw [backendSlots_assemble k opts certStore S0 P hn v hv]
      exact slotPool_wellFormed _ _ _ _ (ih v.Name hx) (hset v hv)
    · rw [backendSlots_assemble_of_not_mem k opts certStore S0 P x (by
        simp only [pairNames, List.mem_cons, not_or]
        exact ⟨hx, hmem⟩)]
      exact wellFormedSlots_nil

/-- C8 as stated fails, in two ways.  (a) For the policy whose upstream desires
`[1.2.3.4:8080 weight 5, 1.2.3.4:8080 weight 7]`, `Generate` from the empty
snapshot gives `srv_0` weight 5 and `srv_1` weight 7, both active; with the
first node removed both slots take weight 7, and with it added again both take
weight 5, which is not the snapshot before the removal.  (b) From a snapshot
with two active slots at `1.2.3.4:8080`, the policy desiring that one node
gives two active slots; with the node removed both become placeholders, and
with it added again only `srv_0` is reactivated. -/
theorem slot_reuse_on_readdition_counterexample :
    (Generate sampleConstants TestOpts TestCertStore {} duplicateNodesPolicy =
        Except.ok (fixtureWithSlots ""
          [testSlot "srv_0" nodeA "", testSlot "srv_1" nodeA7 ""]) ∧
      Generate sampleConstants TestOpts TestCertStore
          (fixtureWithSlots "" [testSlot "srv_0" nodeA "", testSlot "srv_1" nodeA7 ""])
          (withNodes (GetTestConsulConfig sampleConstants) [nodeA7]) =
        Except.ok (fixtureWithSlots ""
          [testSlot "srv_0" nodeA7 "", testSlot "srv_1" nodeA7 ""]) ∧
      Generate sampleConstants TestOpts TestCertStore
          (fixtureWithSlots "" [testSlot "srv_0" nodeA7 "", testSlot "srv_1" nodeA7 ""])
          duplicateNodesPolicy =
        Except.ok (fixtureWithSlots ""
          [testSlot "srv_0" nodeA "", testSlot "srv_1" nodeA ""]) ∧
      fixtureWithSlots "" [testSlot "srv_0" nodeA "", testSlot "srv_1" nodeA ""] ≠
        fixtureWithSlots "" [testSlot "srv_0" nodeA "", testSlot "srv_1" nodeA7 ""]) ∧
    (Generate sampleConstants TestOpts TestCertStore
          (fixtureWithSlots "" [testSlot "srv_0" nodeA "", testSlot "srv_1" nodeA ""])
          (withNodes (GetTestConsulConfig sampleConstants) [nodeA]) =
        Except.ok (fixtureWithSlots ""
          [testSlot "srv_0" nodeA "", testSlot "srv_1" nodeA ""]) ∧
      Generate sampleConstants TestOpts TestCertStore
          (fixtureWithSlots "" [testSlot "srv_0" nodeA "", testSlot "srv_1" nodeA ""])
          (withNodes (GetTestConsulConfig sampleConstants) []) =
        Except.ok (fixtureWithSlots ""
          [testPlaceholder "srv_0" "", testPlaceholder "srv_1" ""]) ∧
      Generate sampleConstants TestOpts TestCertStore
          (fixtureWithSlots "" [testPlaceholder "srv_0" "", testPlaceholder "srv_1" ""])
          (withNodes (GetTestConsulConfig sampleConstants) [nodeA]) =
        Except.ok (fixtureWithSlots ""
          [testSlot "srv_0" nodeA "", testPlaceholder "srv_1" ""]) ∧
      fixtureWithSlots "" [testSlot "srv_0" nodeA "", testPlaceholder "srv_1" ""] ≠
        fixtureWithSlots "" [testSlot "srv_0" nodeA "", testSlot "srv_1" nodeA ""]) := by
  refine ⟨⟨?_, ?_, ?_, ?_⟩, ⟨?_, ?_, ?_, ?_⟩⟩ <;> decide

/-- C8, amended: let `S0` be a snapshot the driver can hold and `S` what
`Generate` returns from it for a policy `P` (no two nodes of one (host, port)
in an upstream), with every slot of every upstream's backend active.  Let `P'`
be `P` with one node `x` removed from one upstream `u`.  Then `Generate` from
`S` for `P'` succeeds, and `Generate` from its result for `P` returns `S`
again: the re-added node gets back its slot, with name, address, port and
weight. -/
theorem Generate_remove_readd (k : Constants) (opts : Options)
    (certStore : CertificateStore) (S0 S : State) (P : consul.Config)
    (pre post : List consul.Upstream) (u : consul.Upstream)
    (before after : List consul.UpstreamNode) (x : consul.UpstreamNode)
    (hreach : Reachable k S0)
    (hgen : Generate k opts certStore S0 P = Except.ok S)
    (hset : ∀ v ∈ P.Upstreams, (v.Nodes.map nodeKey).Nodup)
    (hactive : ∀ v ∈ P.Upstreams, ∀ s ∈ backendSlots S (backendName v.Name),
      isActive s = true)
    (hups : P.Upstreams = pre ++ u :: post)
    (hnodes : u.Nodes = before ++ x :: after) :
    ∃ S1,
      Generate k opts certStore S
          { P with Upstreams := pre ++ { u with Nodes := before ++ after } :: post } =
        Except.ok S1 ∧
      Generate k opts certStore S1 P = Except.ok S := by
  have hn := ((Generate_eq_ok_iff k opts certStore S0 P S).1 hgen).1
  have hwf := Reachable_wellFormed k S (Reachable.step opts certStore S0 S P hreach hset hgen)
  have hsettled : ∀ v ∈ P.Upstreams,
      (∀ s ∈ backendSlots S (backendName v.Name),
        s.Maintenance = models.Maintenance.disabled) ∧
      ((backendSlots S (backendName v.Name)).map slotKey).Nodup := by
    intro v hv
    have hne : v.Name ≠ "downstream" := by
      intro h
      have hmem : v.Name ∈ P.Upstreams.map (fun u => u.Name) :=
        List.mem_map_of_mem (fun u : consul.Upstream => u.Name) hv
      rw [pairNames, List.nodup_cons] at hn
      rw [h] at hmem
      exact hn.1 hmem
    exact settled_of_wellFormed _ (hwf v.Name hne) (hactive v hv)
  exact Generate_remove_readd_of_settled k opts certStore S0 S P pre post u before after x
    hgen hset (fun v hv => (hsettled v hv).1) (fun v hv => (hsettled v hv).2) hups hnodes

/-- C8, amended, on the second part of `TestServerUpdate`: from the fixture,
which is what `Generate` returns from the empty snapshot, removing
`1.2.3.4:8080` (weight 5) and adding it again gives the fixture back, `srv_0`
included. -/
theorem Generate_remove_readd_witness :
    ∃ S1,
      Generate sampleConstants TestOpts TestCertStore (GetTestHAConfig sampleConstants "/" "")
          (withNodes (GetTestConsulConfig sampleConstants) [nodeB]) = Except.ok S1 ∧
      Generate sampleConstants TestOpts TestCertStore S1
          (GetTestConsulConfig sampleConstants) =
        Except.ok (GetTestHAConfig sampleConstants "/" "") :=
  Generate_remove_readd sampleConstants TestOpts TestCertStore {}
    (GetTestHAConfig sampleConstants "/" "") (GetTestConsulConfig sampleConstants)
    [] [] testUpstream [] [nodeB] nodeA
    Reachable.empty (by decide) (by decide) (by decide) rfl rfl

end state
